import Mathlib

/-!
Verification of the TMDB movie ETL pipeline (clean / enrich / rank / group
modules) against its natural-language specification.

The pandas DataFrames of the source are embedded shallowly: a `Frame` is an
ordered list of present columns together with a list of rows; a row is an
association list from column names to optional cell values (`none` models
pandas NaN / None).  Numeric cells are rationals; the claims under
verification do not concern binary floating-point rounding.
-/

namespace TMDB

/-- The column names this pipeline reads or writes (pandas columns are
strings; the pipeline only ever addresses this fixed set by name). -/
inductive Col
  | id | title | tagline | release_date | genres | belongs_to_collection
  | original_language | budget_musd | revenue_musd | production_companies
  | production_countries | vote_count | vote_average | popularity | runtime
  | overview | spoken_languages | poster_path | cast | cast_size | director
  | crew_size | budget | revenue | status | adult | imdb_id | original_title
  | video | homepage | profit_musd | roi | release_year | release_month
  | runtime_category | is_franchise | vote_score
  deriving DecidableEq, Repr

/-- A calendar date, the result of `pd.to_datetime` (time-of-day is never
used by the pipeline). -/
structure Date where
  year : Int
  month : Int
  day : Int
  deriving DecidableEq, Repr

/-- A non-null cell value.  `num` covers the float/int columns, `vstr` the
object/string columns, `vbool` booleans, `vdate` datetimes. -/
inductive Value
  | num (q : ℚ)
  | vstr (s : String)
  | vbool (b : Bool)
  | vdate (d : Date)
  deriving DecidableEq, Repr

/-- A cell: `none` is pandas NaN / NaT / None ("missing"). -/
abbrev Cell := Option Value

/-- A row: association list from columns to cells.  Reads take the first
binding; absent bindings read as missing. -/
abbrev Row := List (Col × Cell)

/-- Read a cell (pandas `row[col]` / `row.get(col, nan)`). -/
def Row.get : Row → Col → Cell
  | [], _ => none
  | p :: ps, c => if p.1 = c then p.2 else Row.get ps c

/-- Write a cell, replacing the first binding or appending a new one
(pandas column assignment, restricted to one row). -/
def Row.set : Row → Col → Cell → Row
  | [], c, v => [(c, v)]
  | p :: ps, c, v => if p.1 = c then (c, v) :: ps else p :: Row.set ps c v

/-- A DataFrame: ordered present columns plus rows (index always 0..k-1,
matching `reset_index(drop=True)` at the stage boundaries). -/
structure Frame where
  cols : List Col
  rows : List Row
  deriving DecidableEq, Repr

/-- The observable content of a frame: the ordered columns and, for each
row, the cells of exactly the present columns.  Two frames with equal
`data` are the same dataset (bindings for dropped columns are never
consulted again). -/
def Frame.data (df : Frame) : List Col × List (List Cell) :=
  (df.cols, df.rows.map (fun r => df.cols.map (fun c => r.get c)))

/-- Row `i` of a frame (any out-of-range index reads as the empty row). -/
def rowAt (df : Frame) (i : ℕ) : Row := (df.rows[i]?).getD []

/-- Cell at row `i`, column `c`. -/
def getAt (df : Frame) (i : ℕ) (c : Col) : Cell := (rowAt df i).get c

/-- Well-formed frame: rows only bind columns that are present.  All frames
constructed by the pipeline from well-formed input satisfy this. -/
def Frame.WF (df : Frame) : Prop :=
  ∀ r ∈ df.rows, ∀ p ∈ r, p.1 ∈ df.cols

instance (df : Frame) : Decidable df.WF := by
  unfold Frame.WF; infer_instance

/-- `df = df.drop(columns=[...])` — the columns leave the visible schema;
their cell bindings are never read again (every later access is guarded by
column presence). -/
def dropColumns (df : Frame) (cs : List Col) : Frame :=
  { cols := df.cols.filter (fun c => ¬ c ∈ cs), rows := df.rows }

/-- `if c in df.columns: df[c] = df[c].apply(f)` (also models vectorized
per-cell operations such as `replace` and `to_numeric` on one column). -/
def applyToColumn (df : Frame) (c : Col) (f : Cell → Cell) : Frame :=
  if c ∈ df.cols then
    { cols := df.cols, rows := df.rows.map (fun r => r.set c (f (r.get c))) }
  else df

/-- `df[c] = <row-wise expression>`: overwrites `c` if present, otherwise
appends it as the last column (pandas places new columns at the end). -/
def assignColumn (df : Frame) (c : Col) (f : Row → Cell) : Frame :=
  { cols := if c ∈ df.cols then df.cols else df.cols ++ [c],
    rows := df.rows.map (fun r => r.set c (f r)) }

/-! ### Python literal values and `ast.literal_eval`

`clean_movies` parses the JSON-like columns with `ast.literal_eval` (via
`safe_eval`).  `PyVal` is the result type; `literalEval` is a recursive
descent reading of Python literal syntax for the constructs the data uses:
quoted strings, signed decimal numbers, `True`/`False`/`None`, lists, and
dicts with string keys.  Any other input fails, exactly as `literal_eval`
raises (which `safe_eval` turns into `None`). -/

inductive PyVal
  | pnone
  | pbool (b : Bool)
  | pnum (q : ℚ)
  | pstr (s : String)
  | plist (xs : List PyVal)
  | pdict (kvs : List (String × PyVal))

/-- Skip blanks. -/
def skipWs : List Char → List Char
  | c :: cs => if c = ' ' ∨ c = '\t' ∨ c = '\n' then skipWs cs else c :: cs
  | [] => []

/-- Read a run of decimal digit characters. -/
def takeDigits : List Char → (List Char × List Char)
  | c :: cs =>
      if c.isDigit then
        let (ds, rest) := takeDigits cs
        (c :: ds, rest)
      else ([], c :: cs)
  | [] => ([], [])

/-- Natural number denoted by a digit run. -/
def digitsToNat (ds : List Char) : ℕ :=
  ds.foldl (fun acc c => 10 * acc + (c.toNat - '0'.toNat)) 0

/-- Parse an unsigned decimal literal (integer or `int.frac`). -/
def parseUnsigned (cs : List Char) : Option (ℚ × List Char) :=
  match takeDigits cs with
  | ([], _) => none
  | (ds, rest) =>
      match rest with
      | '.' :: rest2 =>
          let (fs, rest3) := takeDigits rest2
          some ((digitsToNat ds : ℚ) + (digitsToNat fs : ℚ) / (10 ^ fs.length : ℚ), rest3)
      | _ => some ((digitsToNat ds : ℚ), rest)

/-- Parse a signed decimal literal. -/
def parseSigned (cs : List Char) : Option (ℚ × List Char) :=
  match cs with
  | '-' :: rest => (parseUnsigned rest).map (fun p => (-p.1, p.2))
  | '+' :: rest => parseUnsigned rest
  | _ => parseUnsigned cs

/-- Read a quoted string body up to the closing quote `q`; a backslash
escapes the following character. -/
def takeQuoted (q : Char) : List Char → Option (List Char × List Char)
  | [] => none
  | '\\' :: c :: cs => (takeQuoted q cs).map (fun p => (c :: p.1, p.2))
  | c :: cs =>
      if c = q then some ([], cs)
      else (takeQuoted q cs).map (fun p => (c :: p.1, p.2))

mutual

/-- One Python literal value, returning the unconsumed remainder. -/
def pyVal (fuel : ℕ) (cs : List Char) : Option (PyVal × List Char) :=
  match fuel with
  | 0 => none
  | fuel + 1 =>
    match skipWs cs with
    | '[' :: rest => pyList fuel (skipWs rest) []
    | c :: rest =>
        if c = '\x7b' then pyDict fuel (skipWs rest) []
        else if c = '\'' ∨ c = '"' then
          (takeQuoted c rest).map (fun p => (.pstr (String.mk p.1), p.2))
        else if c = 'T' ∧ rest.take 3 = ['r', 'u', 'e'] then
          some (.pbool true, rest.drop 3)
        else if c = 'F' ∧ rest.take 4 = ['a', 'l', 's', 'e'] then
          some (.pbool false, rest.drop 4)
        else if c = 'N' ∧ rest.take 3 = ['o', 'n', 'e'] then
          some (.pnone, rest.drop 3)
        else
          (parseSigned (c :: rest)).map (fun p => (.pnum p.1, p.2))
    | [] => none

/-- List elements after `[`, accumulating in reverse. -/
def pyList (fuel : ℕ) (cs : List Char) (acc : List PyVal) :
    Option (PyVal × List Char) :=
  match fuel with
  | 0 => none
  | fuel + 1 =>
    match cs with
    | ']' :: rest => some (.plist acc.reverse, rest)
    | _ =>
      match pyVal fuel cs with
      | none => none
      | some (v, rest) =>
          match skipWs rest with
          | ',' :: rest2 => pyList fuel (skipWs rest2) (v :: acc)
          | ']' :: rest2 => some (.plist (v :: acc).reverse, rest2)
          | _ => none

/-- Dict entries after the opening brace; keys must be quoted strings
(the shape the data's serialized mappings use). -/
def pyDict (fuel : ℕ) (cs : List Char) (acc : List (String × PyVal)) :
    Option (PyVal × List Char) :=
  match fuel with
  | 0 => none
  | fuel + 1 =>
    match cs with
    | c :: rest =>
      if c = '\x7d' then some (.pdict acc.reverse, rest)
      else if c = '\'' ∨ c = '"' then
        match takeQuoted c rest with
        | none => none
        | some (key, rest2) =>
          match skipWs rest2 with
          | ':' :: rest3 =>
            match pyVal fuel (skipWs rest3) with
            | none => none
            | some (v, rest4) =>
                match skipWs rest4 with
                | ',' :: rest5 => pyDict fuel (skipWs rest5) ((String.mk key, v) :: acc)
                | d :: rest5 =>
                    if d = '\x7d' then some (.pdict ((String.mk key, v) :: acc).reverse, rest5)
                    else none
                | [] => none
          | _ => none
      else none
    | [] => none

end

/-- `ast.literal_eval` on a string: parse one literal, demand that nothing
but blanks remains, fail otherwise. -/
def literalEval (s : String) : Option PyVal :=
  match pyVal (s.length + 1) s.toList with
  | some (v, rest) => if skipWs rest = [] then some v else none
  | none => none

/-! ### `safe_eval` and the nested-field extractors (clean_movies.py) -/

/-- Python truthiness of a parsed value (`if parsed`, `if item.get(key)`). -/
def pyTruthy : PyVal → Bool
  | .pnone => false
  | .pbool b => b
  | .pnum q => q ≠ 0
  | .pstr s => s ≠ ""
  | .plist xs => ¬ xs.isEmpty
  | .pdict kvs => ¬ kvs.isEmpty

/-- First value bound to `key` in a parsed dict (`dict.get`). -/
def pyGet (kvs : List (String × PyVal)) (key : String) : Option PyVal :=
  (kvs.find? (fun p => p.1 = key)).map (fun p => p.2)

/-- Store a parsed scalar back into a cell.  Python `None` becomes NaN when
pandas materializes the column; nested list/dict results do not occur in
this data (the extractors only ever store the scalar `name` fields). -/
def pyToCell : PyVal → Cell
  | .pnone => none
  | .pbool b => some (.vbool b)
  | .pnum q => some (.num q)
  | .pstr s => some (.vstr s)
  | .plist _ => none
  | .pdict _ => none

/-- `safe_eval` applied to a cell.  `None`/NaN give `None`; a string goes
through `ast.literal_eval`; a number or boolean round-trips through `str`
unchanged; a datetime's `str()` rendering is not literal syntax, so it
fails to `None`. -/
def safe_eval : Cell → Option PyVal
  | none => none
  | some (.vstr s) => literalEval s
  | some (.num q) => some (.pnum q)
  | some (.vbool b) => some (.pbool b)
  | some (.vdate _) => none

/-- `extract_collection_name`: name field of a parsed non-empty dict. -/
def extract_collection_name (v : Cell) : Cell :=
  match safe_eval v with
  | some (.pdict kvs) =>
      if kvs.isEmpty then none
      else match pyGet kvs "name" with
           | some pv => pyToCell pv
           | none => none
  | _ => none

/-- `extract_names_from_list`: the `key` fields of the dict elements of a
parsed non-empty list, joined with `sep`; only truthy values are kept
(the names in this data are strings). -/
def extract_names_from_list (v : Cell) (key : String) (sep : String) : Cell :=
  match safe_eval v with
  | some (.plist items) =>
      if items.isEmpty then none
      else
        let names := items.filterMap (fun it =>
          match it with
          | .pdict kvs =>
              match pyGet kvs key with
              | some (.pstr s) => if s ≠ "" then some s else none
              | _ => none
          | _ => none)
        if names.isEmpty then none
        else some (.vstr (String.intercalate sep names))
  | _ => none

/-- `extract_language_codes`: per element, the first truthy of
`english_name`, `name`, `iso_639_1`; joined with `sep`. -/
def extract_language_codes (v : Cell) (sep : String) : Cell :=
  match safe_eval v with
  | some (.plist items) =>
      if items.isEmpty then none
      else
        let names := items.filterMap (fun it =>
          match it with
          | .pdict kvs =>
              match pyGet kvs "english_name" with
              | some (.pstr s) => if s ≠ "" then some s else none
              | _ =>
                match pyGet kvs "name" with
                | some (.pstr s) => if s ≠ "" then some s else none
                | _ =>
                  match pyGet kvs "iso_639_1" with
                  | some (.pstr s) => if s ≠ "" then some s else none
                  | _ => none
          | _ => none)
        if names.isEmpty then none
        else some (.vstr (String.intercalate sep names))
  | _ => none

/-! ### Type coercions (clean_movies steps 3–4) -/

/-- Decimal-string reading used by `pd.to_numeric` on object cells:
optional surrounding blanks, sign, digits, optional fraction. -/
def parseNumber (s : String) : Option ℚ :=
  match parseSigned (skipWs s.toList) with
  | some (q, rest) => if skipWs rest = [] then some q else none
  | none => none

/-- `pd.to_numeric(col, errors='coerce')` on one cell: numbers pass
through, booleans become 0/1, numeric strings parse, everything else
(including datetimes) coerces to NaN. -/
def toNumericCell : Cell → Cell
  | some (.num q) => some (.num q)
  | some (.vbool b) => some (.num (if b then 1 else 0))
  | some (.vstr s) => (parseNumber s).map .num
  | some (.vdate _) => none
  | none => none

/-- Split a character list at every occurrence of `sep` (Python
`str.split(sep)`; `String.splitOn` itself is not kernel-reducible, so the
splitting is spelled out structurally). -/
def splitOnChar (sep : Char) : List Char → List (List Char)
  | [] => [[]]
  | c :: rest =>
      match splitOnChar sep rest with
      | [] => [[]]
      | t :: ts => if c = sep then [] :: t :: ts else (c :: t) :: ts

/-- Remove leading and trailing whitespace (Python `str.strip()`). -/
def trimChars (cs : List Char) : List Char :=
  ((cs.dropWhile Char.isWhitespace).reverse.dropWhile Char.isWhitespace).reverse

/-- `YYYY-MM-DD` reading used by `pd.to_datetime` on the release dates. -/
def parseDate (s : String) : Option Date :=
  match (splitOnChar '-' s.toList).map String.mk with
  | [y, m, d] =>
      match parseNumber y, parseNumber m, parseNumber d with
      | some qy, some qm, some qd =>
          if qy.den = 1 ∧ qm.den = 1 ∧ qd.den = 1 ∧ 1 ≤ qm.num ∧ qm.num ≤ 12
              ∧ 1 ≤ qd.num ∧ qd.num ≤ 31 then
            some ⟨qy.num, qm.num, qd.num⟩
          else none
      | _, _, _ => none
  | _ => none

/-- `pd.to_datetime(col, errors='coerce')` on one cell: datetimes pass
through, date strings parse, everything else coerces to NaT. -/
def toDatetimeCell : Cell → Cell
  | some (.vdate d) => some (.vdate d)
  | some (.vstr s) => (parseDate s).map .vdate
  | _ => none

/-- `replace(0, np.nan)` on one cell. -/
def zeroToNan : Cell → Cell
  | some (.num q) => if q = 0 then none else some (.num q)
  | v => v

/-- `df[col] / 1_000_000` on one cell (NaN propagates). -/
def divMillion : Cell → Cell
  | some (.num q) => some (.num (q / 1000000))
  | _ => none

/-- The free-text placeholder values replaced with NaN in step 4. -/
def placeholderValues : List Value :=
  [.vstr "No Data", .vstr "No data", .vstr "N/A", .vstr "n/a", .vstr "", .vstr " "]

/-- `replace(placeholders, np.nan)` on one cell. -/
def placeholderToNan : Cell → Cell
  | some v => if v ∈ placeholderValues then none else some v
  | none => none

/-! ### clean_movies (src/transform/clean_movies.py) -/

/-- `COLUMNS_TO_DROP` from constants.py. -/
def COLUMNS_TO_DROP : List Col :=
  [.adult, .imdb_id, .original_title, .video, .homepage]

/-- `FINAL_COLUMN_ORDER` from constants.py. -/
def FINAL_COLUMN_ORDER : List Col :=
  [.id, .title, .tagline, .release_date, .genres, .belongs_to_collection,
   .original_language, .budget_musd, .revenue_musd, .production_companies,
   .production_countries, .vote_count, .vote_average, .popularity, .runtime,
   .overview, .spoken_languages, .poster_path, .cast, .cast_size, .director,
   .crew_size]

/-- Step 1: drop the irrelevant columns that are present. -/
def cleanStep1 (df : Frame) : Frame := dropColumns df COLUMNS_TO_DROP

/-- Step 4's two scaled-column additions (written as a standalone step so
the conditional is first-class). -/
def addMusd (c musd : Col) (df : Frame) : Frame :=
  if c ∈ df.cols then assignColumn df musd (fun r => divMillion (r.get c))
  else df

/-- Step 2: parse the JSON-like columns (each guarded by presence). -/
def cleanStep2 (df : Frame) : Frame :=
  applyToColumn
    (applyToColumn
      (applyToColumn
        (applyToColumn
          (applyToColumn df .belongs_to_collection extract_collection_name)
          .genres (fun v => extract_names_from_list v "name" "|"))
        .spoken_languages (fun v => extract_language_codes v "|"))
      .production_countries (fun v => extract_names_from_list v "name" "|"))
    .production_companies (fun v => extract_names_from_list v "name" "|")

/-- Step 3: coerce the numeric columns and the release date. -/
def cleanStep3 (df : Frame) : Frame :=
  applyToColumn
    (applyToColumn
      (applyToColumn
        (applyToColumn
          (applyToColumn
            (applyToColumn
              (applyToColumn
                (applyToColumn df .budget toNumericCell)
                .id toNumericCell)
              .popularity toNumericCell)
            .revenue toNumericCell)
          .runtime toNumericCell)
        .vote_count toNumericCell)
      .vote_average toNumericCell)
    .release_date toDatetimeCell

/-- Step 4: zeros in budget/revenue/runtime become NaN; the million-scaled
monetary columns are added; free-text placeholders become NaN. -/
def cleanStep4 (df : Frame) : Frame :=
  applyToColumn
    (applyToColumn
      (addMusd .revenue .revenue_musd
        (addMusd .budget .budget_musd
          (applyToColumn
            (applyToColumn
              (applyToColumn df .budget zeroToNan)
              .revenue zeroToNan)
            .runtime zeroToNan)))
      .overview placeholderToNan)
    .tagline placeholderToNan

/-- `drop_duplicates(subset=['id'], keep='first')`: keep the first row for
each id cell value (pandas treats NaN ids as equal to each other). -/
def dedupById : List Row → List Cell → List Row
  | [], _ => []
  | r :: rs, seen =>
      if r.get .id ∈ seen then dedupById rs seen
      else r :: dedupById rs (r.get .id :: seen)

/-- Step 5a: remove duplicate ids (guarded by presence of the column). -/
def cleanStep5a (df : Frame) : Frame :=
  if .id ∈ df.cols then { cols := df.cols, rows := dedupById df.rows [] } else df

/-- Step 5b: drop rows with missing id or title — only when both columns
are present; an absent identity/name column silently skips this check. -/
def cleanStep5b (df : Frame) : Frame :=
  if .id ∈ df.cols ∧ .title ∈ df.cols then
    { cols := df.cols,
      rows := df.rows.filter (fun r => (r.get .id).isSome ∧ (r.get .title).isSome) }
  else df

/-- The number of non-missing cells a row has among the present columns. -/
def nonNullCount (cols : List Col) (r : Row) : ℕ :=
  (cols.filter (fun c => (r.get c).isSome)).length

/-- Step 5c: `dropna(thresh=10)` — keep rows with at least 10 non-null
values. -/
def cleanStep5c (df : Frame) : Frame :=
  { cols := df.cols, rows := df.rows.filter (fun r => 10 ≤ nonNullCount df.cols r) }

/-- Step 6: keep only released movies, then drop the status column. -/
def cleanStep6 (df : Frame) : Frame :=
  if .status ∈ df.cols then
    dropColumns
      { cols := df.cols,
        rows := df.rows.filter (fun r => r.get .status = some (.vstr "Released")) }
      [.status]
  else df

/-- Step 7: canonical columns first (in `FINAL_COLUMN_ORDER`), then any
extra columns in their current order. -/
def cleanStep7 (df : Frame) : Frame :=
  { cols := FINAL_COLUMN_ORDER.filter (fun c => c ∈ df.cols)
      ++ df.cols.filter (fun c => ¬ c ∈ FINAL_COLUMN_ORDER),
    rows := df.rows }

/-- `clean_movies`: the full cleaning pipeline (step 8, `reset_index`, is
the identity on this representation). -/
def clean_movies (df : Frame) : Frame :=
  cleanStep7 (cleanStep6 (cleanStep5c (cleanStep5b (cleanStep5a
    (cleanStep4 (cleanStep3 (cleanStep2 (cleanStep1 df))))))))

/-- `clean_movies` with the identity/name check omitted — used to state
what the cleaner actually does when the id or title column is absent. -/
def cleanWithoutIdTitleCheck (df : Frame) : Frame :=
  cleanStep7 (cleanStep6 (cleanStep5c (cleanStep5a
    (cleanStep4 (cleanStep3 (cleanStep2 (cleanStep1 df)))))))

/-! ### enrich_movies (src/transform/enrich_movies.py) -/

/-- Elementwise subtraction with NaN propagation
(`revenue_musd - budget_musd`). -/
def cellSub : Cell → Cell → Cell
  | some (.num a), some (.num b) => some (.num (a - b))
  | _, _ => none

/-- `np.where(budget_musd > 0, profit_musd / budget_musd, np.nan)` on one
row: the comparison is False for NaN budgets, and a NaN numerator keeps
the quotient NaN. -/
def roiCell (profit budget : Cell) : Cell :=
  match budget with
  | some (.num b) =>
      if 0 < b then
        match profit with
        | some (.num p) => some (.num (p / b))
        | _ => none
      else none
  | _ => none

/-- `.dt.year` on one cell (NaT gives NaN). -/
def yearCell : Cell → Cell
  | some (.vdate d) => some (.num (d.year : ℚ))
  | _ => none

/-- `.dt.month` on one cell. -/
def monthCell : Cell → Cell
  | some (.vdate d) => some (.num (d.month : ℚ))
  | _ => none

/-- `categorize_runtime`: Short below 90, Medium up to 150, Long above;
missing runtime stays missing. -/
def categorize_runtime : Cell → Cell
  | some (.num m) =>
      some (.vstr (if m < 90 then "Short" else if m ≤ 150 then "Medium" else "Long"))
  | _ => none

/-- The weighted vote score of one row:
`(vote_count / (vote_count + min_votes)) * vote_average` with
`min_votes = 100` fixed as a local constant inside `enrich_movies`. -/
def voteScoreCell (count avg : Cell) : Cell :=
  match count, avg with
  | some (.num c), some (.num a) => some (.num (c / (c + 100) * a))
  | _, _ => none

/-- Profit block: `revenue_musd - budget_musd` when both columns exist. -/
def enrichProfit (df : Frame) : Frame :=
  if .revenue_musd ∈ df.cols ∧ .budget_musd ∈ df.cols then
    assignColumn df .profit_musd
      (fun r => cellSub (r.get .revenue_musd) (r.get .budget_musd))
  else df

/-- ROI block: guarded division where the budget is strictly positive. -/
def enrichRoi (df : Frame) : Frame :=
  if .profit_musd ∈ df.cols ∧ .budget_musd ∈ df.cols then
    assignColumn df .roi (fun r => roiCell (r.get .profit_musd) (r.get .budget_musd))
  else df

/-- Date block: re-coerce `release_date` and extract year and month. -/
def enrichDates (df : Frame) : Frame :=
  if .release_date ∈ df.cols then
    let e1 := applyToColumn df .release_date toDatetimeCell
    let e2 := assignColumn e1 .release_year (fun r => yearCell (r.get .release_date))
    assignColumn e2 .release_month (fun r => monthCell (r.get .release_date))
  else df

/-- Runtime classification block. -/
def enrichRuntime (df : Frame) : Frame :=
  if .runtime ∈ df.cols then
    assignColumn df .runtime_category (fun r => categorize_runtime (r.get .runtime))
  else df

/-- Franchise flag block: `belongs_to_collection.notna()`. -/
def enrichFranchise (df : Frame) : Frame :=
  if .belongs_to_collection ∈ df.cols then
    assignColumn df .is_franchise
      (fun r => some (.vbool (r.get .belongs_to_collection).isSome))
  else df

/-- Weighted vote score block (`min_votes = 100` is fixed inside
`enrich_movies`, not a parameter). -/
def enrichVoteScore (df : Frame) : Frame :=
  if .vote_average ∈ df.cols ∧ .vote_count ∈ df.cols then
    assignColumn df .vote_score
      (fun r => voteScoreCell (r.get .vote_count) (r.get .vote_average))
  else df

/-- `enrich_movies`: adds profit, roi, release year/month, runtime
category, franchise flag and weighted vote score, each guarded on its
input columns being present. -/
def enrich_movies (df : Frame) : Frame :=
  enrichVoteScore (enrichFranchise (enrichRuntime (enrichDates
    (enrichRoi (enrichProfit df)))))

/-- The weighted score as the specification words it: `votes / (votes + K)
* rating` with a configurable smoothing constant `K`, missing if either
input is missing.  (Modelled from the spec, for comparison with the
code's fixed-constant version.) -/
def vote_score_spec (K : ℚ) (votes rating : Option ℚ) : Option ℚ :=
  match votes, rating with
  | some v, some r => some (v / (v + K) * r)
  | _, _ => none

/-- The rational value of a numeric cell. -/
def toQ : Cell → Option ℚ
  | some (.num q) => some q
  | _ => none

/-! ### Grouped aggregations (franchise_analysis.py, director_analysis.py)

`groupby(...).agg(...)` is modelled group by group: keys are collected in
first-appearance order and each group aggregates the member rows.  (pandas
sorts group keys, but every property proved below is membership-based, so
group order is irrelevant; the final explicit `sort_values` is modelled by
an insertion sort.)  `sum` skips missing values and sums an all-missing
group to 0; `mean` of an all-missing group is missing; `count` counts
non-missing cells. -/

/-- The numeric values present in column `c` of the given rows. -/
def numericValues (rows : List Row) (c : Col) : List ℚ :=
  rows.filterMap (fun r => toQ (r.get c))

/-- pandas `sum` (skipna, empty sum is 0). -/
def aggSum (rows : List Row) (c : Col) : ℚ := (numericValues rows c).sum

/-- pandas `mean` (skipna, all-missing is NaN). -/
def aggMean (rows : List Row) (c : Col) : Option ℚ :=
  let xs := numericValues rows c
  if xs.isEmpty then none else some (xs.sum / xs.length)

/-- pandas `count`: the number of non-null cells in column `c`. -/
def aggCount (rows : List Row) (c : Col) : ℕ :=
  (rows.filter (fun r => (r.get c).isSome)).length

/-- Round half to even at the given power of ten (`.round(2)` is
`roundTo 100`).  numpy rounds the binary float; this is its exact
decimal counterpart. -/
def roundHalfEven (q : ℚ) : ℤ :=
  let f := ⌊q⌋
  if q - f < 1 / 2 then f
  else if 1 / 2 < q - f then f + 1
  else if 2 ∣ f then f else f + 1

/-- `.round(2)`. -/
def round2 (q : ℚ) : ℚ := (roundHalfEven (100 * q) : ℚ) / 100

/-- Distinct key cells of column `c`, in first-appearance order. -/
def keysOf (rows : List Row) (c : Col) : List Value :=
  rows.foldl (fun acc r =>
    match r.get c with
    | some v => if v ∈ acc then acc else acc ++ [v]
    | none => acc) []

/-- Insertion sort, descending by a rational key (`sort_values(...,
ascending=False)`; the tie order is irrelevant to the properties proved
here). -/
def insertDesc (key : α → ℚ) (a : α) : List α → List α
  | [] => [a]
  | b :: bs => if key b < key a then a :: b :: bs else b :: insertDesc key a bs

/-- Sort descending by a rational key. -/
def sortDesc (key : α → ℚ) (l : List α) : List α :=
  l.foldr (insertDesc key) []

/-- One output row of `get_top_franchises`, after the `.round(2)` on the
aggregates and the ratio. -/
structure FranchiseStats where
  franchise : Value
  movie_count : ℕ
  total_budget_musd : ℚ
  mean_budget_musd : Option ℚ
  total_revenue_musd : ℚ
  mean_revenue_musd : Option ℚ
  mean_rating : Option ℚ
  total_profit_musd : ℚ
  franchise_roi : Option ℚ
  deriving DecidableEq, Repr

/-- The aggregate row for one franchise group.  `franchise_roi` is
`total_profit_musd / total_budget_musd` computed from the already-rounded
sums and rounded again (a zero rounded budget sum would divide to
infinity in the source; that value is modelled as missing and excluded by
hypothesis in the theorems). -/
def mkFranchiseStats (v : Value) (rows : List Row) : FranchiseStats :=
  let tb := round2 (aggSum rows .budget_musd)
  let tp := round2 (aggSum rows .profit_musd)
  { franchise := v
    movie_count := aggCount rows .id
    total_budget_musd := tb
    mean_budget_musd := (aggMean rows .budget_musd).map round2
    total_revenue_musd := round2 (aggSum rows .revenue_musd)
    mean_revenue_musd := (aggMean rows .revenue_musd).map round2
    mean_rating := (aggMean rows .vote_average).map round2
    total_profit_musd := tp
    franchise_roi := if tb = 0 then none else some (round2 (tp / tb)) }

/-- `get_top_franchises`: an absent collection column or no franchise
rows returns an empty result; then `groupby('belongs_to_collection')
.agg({'id': ..., 'budget_musd': ..., 'revenue_musd': ...,
'vote_average': ..., 'profit_musd': ...})` raises a `KeyError`
(modelled as `none`) when any column named in the aggregation dictionary
is absent from the frame; otherwise group the franchise rows by
collection, aggregate, sort by total revenue descending, truncate to
`n`. -/
def get_top_franchises (df : Frame) (n : ℕ) : Option (List FranchiseStats) :=
  if ¬ .belongs_to_collection ∈ df.cols then some []
  else if (df.rows.filter (fun r => (r.get .belongs_to_collection).isSome)).isEmpty
  then some []
  else if .id ∈ df.cols ∧ .budget_musd ∈ df.cols ∧ .revenue_musd ∈ df.cols ∧
      .vote_average ∈ df.cols ∧ .profit_musd ∈ df.cols
  then
    some ((sortDesc (fun s => s.total_revenue_musd)
      ((keysOf (df.rows.filter (fun r => (r.get .belongs_to_collection).isSome))
          .belongs_to_collection).map (fun v =>
        mkFranchiseStats v
          ((df.rows.filter (fun r => (r.get .belongs_to_collection).isSome)).filter
            (fun r => r.get .belongs_to_collection = some v))))).take n)
  else none

/-- The director tokens of one cell: split on `|`, trim, keep non-empty
(the source applies `str(...)` first; director cells are strings in this
pipeline, and non-string cells are excluded by hypothesis where it
matters). -/
def directorTokens : Cell → List String
  | some (.vstr s) =>
      (((splitOnChar '|' s.toList).map (fun t => String.mk (trimChars t))).filter
        (fun t => t ≠ ""))
  | _ => []

/-- Explode the rows with a non-missing director into one
`(director, row)` record per token. -/
def explodeDirectors (rows : List Row) : List (String × Row) :=
  (rows.filter (fun r => (r.get .director).isSome)).flatMap
    (fun r => (directorTokens (r.get .director)).map (fun d => (d, r)))

/-- One output row of `get_top_directors`: note that `movie_count` is the
pandas `count` of the group's `revenue_musd` column. -/
structure DirectorStats where
  director : String
  movie_count : ℕ
  total_revenue_musd : ℚ
  mean_revenue_musd : Option ℚ
  mean_rating : Option ℚ
  total_profit_musd : ℚ
  deriving DecidableEq, Repr

/-- The aggregate row for one director group. -/
def mkDirectorStats (d : String) (rows : List Row) : DirectorStats :=
  { director := d
    movie_count := aggCount rows .revenue_musd
    total_revenue_musd := round2 (aggSum rows .revenue_musd)
    mean_revenue_musd := (aggMean rows .revenue_musd).map round2
    mean_rating := (aggMean rows .vote_average).map round2
    total_profit_musd := round2 (aggSum rows .profit_musd) }

/-- Distinct director names in first-appearance order of the exploded
records. -/
def directorKeys (recs : List (String × Row)) : List String :=
  recs.foldl (fun acc p => if p.1 ∈ acc then acc else acc ++ [p.1]) []

/-- `get_top_directors`: explode the director field, group by name,
aggregate, keep groups with `movie_count ≥ min_movies`, sort by total
revenue descending, truncate to `n`. -/
def get_top_directors (df : Frame) (n : ℕ) (min_movies : ℕ) : List DirectorStats :=
  if ¬ .director ∈ df.cols then []
  else if (df.rows.filter (fun r => (r.get .director).isSome)).isEmpty then []
  else
    (sortDesc (fun s => s.total_revenue_musd)
      (((directorKeys (explodeDirectors df.rows)).map (fun d =>
        mkDirectorStats d (((explodeDirectors df.rows).filter
          (fun p => p.1 = d)).map (fun p => p.2)))).filter
        (fun s => min_movies ≤ s.movie_count))).take n

/-! ### Basic lemmas about rows and frame operations -/

theorem Row.get_set_self (r : Row) (c : Col) (v : Cell) : (r.set c v).get c = v := by
  induction r with
  | nil => simp [Row.set, Row.get]
  | cons p ps ih =>
      by_cases h : p.1 = c
      · simp [Row.set, h, Row.get]
      · simp [Row.set, h, Row.get, ih]

theorem Row.get_set_ne (r : Row) {c c' : Col} (v : Cell) (h : c' ≠ c) :
    (r.set c v).get c' = r.get c' := by
  induction r with
  | nil =>
      simp only [Row.set, Row.get]
      rw [if_neg (fun hc : c = c' => h hc.symm)]
  | cons p ps ih =>
      simp only [Row.set]
      by_cases hp : p.1 = c
      · rw [if_pos hp]
        simp only [Row.get]
        rw [if_neg (fun hc : c = c' => h hc.symm),
          if_neg (fun hc : p.1 = c' => h (hc.symm.trans hp))]
      · rw [if_neg hp]
        simp only [Row.get]
        rw [ih]

theorem getAt_of_map (cols : List Col) (rows : List Row) (g : Row → Row) (i : ℕ)
    (c : Col) :
    getAt ⟨cols, rows.map g⟩ i c =
      match rows[i]? with
      | some r => (g r).get c
      | none => none := by
  unfold getAt rowAt
  simp only [List.getElem?_map]
  cases rows[i]? <;> simp [Row.get]

theorem getAt_nil (cols : List Col) (rows : List Row) (i : ℕ) (c : Col)
    (h : rows[i]? = none) : getAt ⟨cols, rows⟩ i c = none := by
  unfold getAt rowAt
  simp [h, Row.get]

/-- `applyToColumn` preserves the column list. -/
theorem cols_applyToColumn (df : Frame) (c : Col) (f : Cell → Cell) :
    (applyToColumn df c f).cols = df.cols := by
  unfold applyToColumn; split <;> rfl

/-- `applyToColumn` preserves the number of rows. -/
theorem length_applyToColumn (df : Frame) (c : Col) (f : Cell → Cell) :
    (applyToColumn df c f).rows.length = df.rows.length := by
  unfold applyToColumn; split <;> simp

/-- Cells of other columns are untouched by `applyToColumn`. -/
theorem getAt_applyToColumn_ne (df : Frame) {c c' : Col} (f : Cell → Cell) (i : ℕ)
    (h : c' ≠ c) : getAt (applyToColumn df c f) i c' = getAt df i c' := by
  unfold applyToColumn
  split
  · rw [getAt_of_map]
    unfold getAt rowAt
    cases hr : df.rows[i]? <;> simp [hr, Row.get, Row.get_set_ne _ _ h]
  · rfl

/-- The touched column's cell after `applyToColumn`, when the column is
present. -/
theorem getAt_applyToColumn_self (df : Frame) {c : Col} (f : Cell → Cell) (i : ℕ)
    (hc : c ∈ df.cols) (hi : i < df.rows.length) :
    getAt (applyToColumn df c f) i c = f (getAt df i c) := by
  unfold applyToColumn
  rw [if_pos hc, getAt_of_map]
  unfold getAt rowAt
  cases hr : df.rows[i]? with
  | none => exact absurd (List.getElem?_eq_getElem hi) (by simp [hr])
  | some r => simp [hr, Row.get_set_self]

/-- `applyToColumn` on an absent column is the identity. -/
theorem applyToColumn_absent (df : Frame) {c : Col} (f : Cell → Cell)
    (h : ¬ c ∈ df.cols) : applyToColumn df c f = df := by
  unfold applyToColumn; exact if_neg h

/-- `assignColumn` preserves the number of rows. -/
theorem length_assignColumn (df : Frame) (c : Col) (f : Row → Cell) :
    (assignColumn df c f).rows.length = df.rows.length := by
  unfold assignColumn; simp

/-- Cells of other columns are untouched by `assignColumn`. -/
theorem getAt_assignColumn_ne (df : Frame) {c c' : Col} (f : Row → Cell) (i : ℕ)
    (h : c' ≠ c) : getAt (assignColumn df c f) i c' = getAt df i c' := by
  unfold assignColumn
  rw [getAt_of_map]
  unfold getAt rowAt
  cases hr : df.rows[i]? <;> simp [hr, Row.get, Row.get_set_ne _ _ h]

/-- The assigned column's cell after `assignColumn`. -/
theorem getAt_assignColumn_self (df : Frame) {c : Col} (f : Row → Cell) (i : ℕ)
    (hi : i < df.rows.length) :
    getAt (assignColumn df c f) i c = f (rowAt df i) := by
  unfold assignColumn
  rw [getAt_of_map]
  unfold rowAt
  cases hr : df.rows[i]? with
  | none => exact absurd (List.getElem?_eq_getElem hi) (by simp [hr])
  | some r => simp [hr, Row.get_set_self]

/-- The columns after `assignColumn`. -/
theorem cols_assignColumn (df : Frame) (c : Col) (f : Row → Cell) :
    (assignColumn df c f).cols = if c ∈ df.cols then df.cols else df.cols ++ [c] := rfl

/-! ### Lemmas about missing bindings and the enrichment steps -/

theorem Row.get_eq_none_of_keys (r : Row) (cols : List Col) {c : Col}
    (hk : ∀ p ∈ r, p.1 ∈ cols) (hc : ¬ c ∈ cols) : r.get c = none := by
  induction r with
  | nil => rfl
  | cons p ps ih =>
      simp only [Row.get]
      rw [if_neg (fun h : p.1 = c => hc (h ▸ hk p (by simp)))]
      exact ih (fun q hq => hk q (by simp [hq]))

/-- In a well-formed frame, an absent column reads as missing in every
row. -/
theorem getAt_eq_none_of_wf (df : Frame) {c : Col} (hwf : df.WF)
    (hc : ¬ c ∈ df.cols) (i : ℕ) : getAt df i c = none := by
  unfold getAt rowAt
  cases hr : df.rows[i]? with
  | none => simp [Row.get]
  | some r =>
      have hmem : r ∈ df.rows := by
        have := List.getElem?_eq_some_iff.mp hr
        obtain ⟨h1, h2⟩ := this
        exact h2 ▸ List.getElem_mem h1
      simpa using Row.get_eq_none_of_keys r df.cols (hwf r hmem) hc

/-- Columns untouched by the profit block. -/
theorem getAt_enrichProfit_ne (df : Frame) {c : Col} (i : ℕ)
    (h : c ≠ Col.profit_musd) : getAt (enrichProfit df) i c = getAt df i c := by
  unfold enrichProfit
  split
  · exact getAt_assignColumn_ne df _ i h
  · rfl

/-- Columns untouched by the ROI block. -/
theorem getAt_enrichRoi_ne (df : Frame) {c : Col} (i : ℕ)
    (h : c ≠ Col.roi) : getAt (enrichRoi df) i c = getAt df i c := by
  unfold enrichRoi
  split
  · exact getAt_assignColumn_ne df _ i h
  · rfl

/-- Columns untouched by the date block. -/
theorem getAt_enrichDates_ne (df : Frame) {c : Col} (i : ℕ)
    (h1 : c ≠ Col.release_date) (h2 : c ≠ Col.release_year)
    (h3 : c ≠ Col.release_month) : getAt (enrichDates df) i c = getAt df i c := by
  unfold enrichDates
  split
  · rw [getAt_assignColumn_ne _ _ i h3, getAt_assignColumn_ne _ _ i h2,
      getAt_applyToColumn_ne _ _ i h1]
  · rfl

/-- Columns untouched by the runtime block. -/
theorem getAt_enrichRuntime_ne (df : Frame) {c : Col} (i : ℕ)
    (h : c ≠ Col.runtime_category) : getAt (enrichRuntime df) i c = getAt df i c := by
  unfold enrichRuntime
  split
  · exact getAt_assignColumn_ne df _ i h
  · rfl

/-- Columns untouched by the franchise block. -/
theorem getAt_enrichFranchise_ne (df : Frame) {c : Col} (i : ℕ)
    (h : c ≠ Col.is_franchise) : getAt (enrichFranchise df) i c = getAt df i c := by
  unfold enrichFranchise
  split
  · exact getAt_assignColumn_ne df _ i h
  · rfl

/-- Columns untouched by the vote-score block. -/
theorem getAt_enrichVoteScore_ne (df : Frame) {c : Col} (i : ℕ)
    (h : c ≠ Col.vote_score) : getAt (enrichVoteScore df) i c = getAt df i c := by
  unfold enrichVoteScore
  split
  · exact getAt_assignColumn_ne df _ i h
  · rfl

/-- The enrichment steps after the ROI block leave the monetary and ROI
cells unchanged. -/
theorem getAt_enrichTail (df : Frame) {c : Col} (i : ℕ)
    (h1 : c ≠ Col.release_date) (h2 : c ≠ Col.release_year)
    (h3 : c ≠ Col.release_month) (h4 : c ≠ Col.runtime_category)
    (h5 : c ≠ Col.is_franchise) (h6 : c ≠ Col.vote_score) :
    getAt (enrichVoteScore (enrichFranchise (enrichRuntime (enrichDates df)))) i c
      = getAt df i c := by
  rw [getAt_enrichVoteScore_ne _ i h6, getAt_enrichFranchise_ne _ i h5,
    getAt_enrichRuntime_ne _ i h4, getAt_enrichDates_ne _ i h1 h2 h3]

/-- Reading past the last row gives missing. -/
theorem getAt_eq_none_of_ge (df : Frame) (i : ℕ) (c : Col)
    (h : df.rows.length ≤ i) : getAt df i c = none := by
  unfold getAt rowAt
  rw [List.getElem?_eq_none h]
  rfl

/-! ### Claim C1 — ROI safety -/

/-- C1: in the enriched dataset (input does not already carry a `roi`
column), every row with a present return ratio has a present, strictly
positive `budget_musd` and a present `profit_musd`, and the ratio equals
`profit_musd / budget_musd`; and whenever `budget_musd` is absent or not
strictly positive, the ratio is missing. -/
theorem C1_roi_safety (df : Frame) (hwf : df.WF) (hroi : ¬ Col.roi ∈ df.cols)
    (i : ℕ) :
    ((getAt (enrich_movies df) i .roi).isSome →
      ∃ b p, getAt (enrich_movies df) i .budget_musd = some (.num b) ∧ 0 < b ∧
        getAt (enrich_movies df) i .profit_musd = some (.num p) ∧
        getAt (enrich_movies df) i .roi = some (.num (p / b)))
    ∧ ((¬ ∃ b, getAt (enrich_movies df) i .budget_musd = some (.num b) ∧ 0 < b) →
      getAt (enrich_movies df) i .roi = none) := by
  have hroiE : getAt (enrich_movies df) i .roi
      = getAt (enrichRoi (enrichProfit df)) i .roi :=
    getAt_enrichTail _ i (by decide) (by decide) (by decide) (by decide)
      (by decide) (by decide)
  have hbudE : getAt (enrich_movies df) i .budget_musd
      = getAt (enrichRoi (enrichProfit df)) i .budget_musd :=
    getAt_enrichTail _ i (by decide) (by decide) (by decide) (by decide)
      (by decide) (by decide)
  have hprofE : getAt (enrich_movies df) i .profit_musd
      = getAt (enrichRoi (enrichProfit df)) i .profit_musd :=
    getAt_enrichTail _ i (by decide) (by decide) (by decide) (by decide)
      (by decide) (by decide)
  rw [hroiE, hbudE, hprofE]
  set d1 := enrichProfit df with hd1
  by_cases hg : Col.profit_musd ∈ d1.cols ∧ Col.budget_musd ∈ d1.cols
  · -- the ROI block runs
    have hd2 : enrichRoi d1 = assignColumn d1 .roi
        (fun r => roiCell (r.get .profit_musd) (r.get .budget_musd)) := by
      unfold enrichRoi; exact if_pos hg
    by_cases hi : i < d1.rows.length
    · have hroi2 : getAt (enrichRoi d1) i .roi
          = roiCell (getAt d1 i .profit_musd) (getAt d1 i .budget_musd) := by
        rw [hd2, getAt_assignColumn_self d1 _ i hi]; rfl
      have hbud2 : getAt (enrichRoi d1) i .budget_musd = getAt d1 i .budget_musd := by
        rw [hd2]; exact getAt_assignColumn_ne d1 _ i (by decide)
      have hprof2 : getAt (enrichRoi d1) i .profit_musd = getAt d1 i .profit_musd := by
        rw [hd2]; exact getAt_assignColumn_ne d1 _ i (by decide)
      rw [hroi2, hbud2, hprof2]
      constructor
      · intro hsome
        cases hb : getAt d1 i .budget_musd with
        | none => rw [hb] at hsome; simp [roiCell] at hsome
        | some vb =>
            rw [hb] at hsome
            cases vb with
            | num b =>
                by_cases hpos : 0 < b
                · cases hp : getAt d1 i .profit_musd with
                  | none => rw [hp] at hsome; simp [roiCell, hpos] at hsome
                  | some vp =>
                      rw [hp] at hsome
                      cases vp with
                      | num p => exact ⟨b, p, rfl, hpos, rfl, by simp [roiCell, hpos]⟩
                      | vstr s => simp [roiCell, hpos] at hsome
                      | vbool b' => simp [roiCell, hpos] at hsome
                      | vdate d => simp [roiCell, hpos] at hsome
                · simp [roiCell, hpos] at hsome
            | vstr s => simp [roiCell] at hsome
            | vbool b' => simp [roiCell] at hsome
            | vdate d => simp [roiCell] at hsome
      · intro hnone
        cases hb : getAt d1 i .budget_musd with
        | none => simp [roiCell]
        | some vb =>
            cases vb with
            | num b =>
                by_cases hpos : 0 < b
                · exact absurd ⟨b, hb, hpos⟩ hnone
                · simp [roiCell, hpos]
            | vstr s => simp [roiCell]
            | vbool b' => simp [roiCell]
            | vdate d => simp [roiCell]
    · -- beyond the last row everything is missing
      have hlen : (enrichRoi d1).rows.length = d1.rows.length := by
        rw [hd2]; exact length_assignColumn d1 _ _
      have hnone : ∀ c, getAt (enrichRoi d1) i c = none := fun c =>
        getAt_eq_none_of_ge _ i c (by omega)
      rw [hnone, hnone]
      exact ⟨fun h => by simp at h, fun _ => rfl⟩
  · -- the ROI block is skipped: the roi column stays absent, hence missing
    have hd2 : enrichRoi d1 = d1 := by unfold enrichRoi; exact if_neg hg
    have hnone : getAt (enrichRoi d1) i .roi = none := by
      rw [hd2, hd1, getAt_enrichProfit_ne df i (by decide)]
      exact getAt_eq_none_of_wf df hwf hroi i
    rw [hnone]
    exact ⟨fun h => by simp at h, fun _ => rfl⟩

/-- A frame with one movie: budget 2 M USD, revenue 6 M USD. -/
def frameC1 : Frame :=
  { cols := [.budget_musd, .revenue_musd],
    rows := [[(Col.budget_musd, some (.num 2)), (Col.revenue_musd, some (.num 6))]] }

/-- C1 witness: the hypotheses hold for `frameC1`, its enriched row 0 has
a present roi (so the theorem is not vacuous there), and the theorem
applies. -/
theorem C1_roi_safety_witness :
    frameC1.WF ∧ ¬ Col.roi ∈ frameC1.cols ∧
    (getAt (enrich_movies frameC1) 0 .roi).isSome = true ∧
    ((getAt (enrich_movies frameC1) 0 .roi).isSome →
      ∃ b p, getAt (enrich_movies frameC1) 0 .budget_musd = some (.num b) ∧ 0 < b ∧
        getAt (enrich_movies frameC1) 0 .profit_musd = some (.num p) ∧
        getAt (enrich_movies frameC1) 0 .roi = some (.num (p / b))) :=
  ⟨by decide, by decide, by decide,
    (C1_roi_safety frameC1 (by decide) (by decide) 0).1⟩

/-! ### Claim C4 — the weighted vote score -/

/-- Row counts are preserved by every enrichment block. -/
theorem length_enrichProfit (df : Frame) :
    (enrichProfit df).rows.length = df.rows.length := by
  unfold enrichProfit; split
  · exact length_assignColumn df _ _
  · rfl

theorem length_enrichRoi (df : Frame) :
    (enrichRoi df).rows.length = df.rows.length := by
  unfold enrichRoi; split
  · exact length_assignColumn df _ _
  · rfl

theorem length_enrichDates (df : Frame) :
    (enrichDates df).rows.length = df.rows.length := by
  unfold enrichDates; split
  · rw [length_assignColumn, length_assignColumn, length_applyToColumn]
  · rfl

theorem length_enrichRuntime (df : Frame) :
    (enrichRuntime df).rows.length = df.rows.length := by
  unfold enrichRuntime; split
  · exact length_assignColumn df _ _
  · rfl

theorem length_enrichFranchise (df : Frame) :
    (enrichFranchise df).rows.length = df.rows.length := by
  unfold enrichFranchise; split
  · exact length_assignColumn df _ _
  · rfl

theorem length_enrichVoteScore (df : Frame) :
    (enrichVoteScore df).rows.length = df.rows.length := by
  unfold enrichVoteScore; split
  · exact length_assignColumn df _ _
  · rfl

/-- Membership in an `assignColumn` result, for a different column. -/
theorem mem_cols_assignColumn_ne (df : Frame) {c c' : Col} (f : Row → Cell)
    (h : c' ≠ c) : c' ∈ (assignColumn df c f).cols ↔ c' ∈ df.cols := by
  rw [cols_assignColumn]
  split
  · exact Iff.rfl
  · simp [h]

theorem mem_cols_enrichProfit (df : Frame) {c : Col} (h : c ≠ .profit_musd) :
    c ∈ (enrichProfit df).cols ↔ c ∈ df.cols := by
  unfold enrichProfit; split
  · exact mem_cols_assignColumn_ne df _ h
  · exact Iff.rfl

theorem mem_cols_enrichRoi (df : Frame) {c : Col} (h : c ≠ .roi) :
    c ∈ (enrichRoi df).cols ↔ c ∈ df.cols := by
  unfold enrichRoi; split
  · exact mem_cols_assignColumn_ne df _ h
  · exact Iff.rfl

theorem mem_cols_enrichDates (df : Frame) {c : Col} (h1 : c ≠ .release_year)
    (h2 : c ≠ .release_month) : c ∈ (enrichDates df).cols ↔ c ∈ df.cols := by
  unfold enrichDates; split
  · rw [mem_cols_assignColumn_ne _ _ h2, mem_cols_assignColumn_ne _ _ h1,
      cols_applyToColumn]
  · exact Iff.rfl

theorem mem_cols_enrichRuntime (df : Frame) {c : Col} (h : c ≠ .runtime_category) :
    c ∈ (enrichRuntime df).cols ↔ c ∈ df.cols := by
  unfold enrichRuntime; split
  · exact mem_cols_assignColumn_ne df _ h
  · exact Iff.rfl

theorem mem_cols_enrichFranchise (df : Frame) {c : Col} (h : c ≠ .is_franchise) :
    c ∈ (enrichFranchise df).cols ↔ c ∈ df.cols := by
  unfold enrichFranchise; split
  · exact mem_cols_assignColumn_ne df _ h
  · exact Iff.rfl

/-- The code's per-row weighted score coincides with the specification's
formula instantiated at `K = 100`. -/
theorem voteScoreCell_eq_spec (a b : Cell) :
    voteScoreCell a b = (vote_score_spec 100 (toQ a) (toQ b)).map Value.num := by
  cases a with
  | none => cases b with
    | none => rfl
    | some w => cases w <;> rfl
  | some v =>
    cases v with
    | num q => cases b with
      | none => rfl
      | some w => cases w <;> rfl
    | vstr s => cases b with
      | none => rfl
      | some w => cases w <;> rfl
    | vbool bb => cases b with
      | none => rfl
      | some w => cases w <;> rfl
    | vdate dd => cases b with
      | none => rfl
      | some w => cases w <;> rfl

/-- C4 (amended): the enrichment stage computes the weighted score as
`votes / (votes + K) * rating` for the fixed local constant `K = 100`
(`min_votes` inside `enrich_movies`; there is no parameter to configure
it), and the score is missing whenever the vote count or the rating is
absent. -/
theorem C4_vote_score (df : Frame) (hwf : df.WF)
    (hvs : ¬ Col.vote_score ∈ df.cols) (i : ℕ) :
    getAt (enrich_movies df) i .vote_score
      = (vote_score_spec 100 (toQ (getAt df i .vote_count))
          (toQ (getAt df i .vote_average))).map Value.num := by
  set d5 := enrichFranchise (enrichRuntime (enrichDates (enrichRoi
    (enrichProfit df)))) with hd5
  have hvc : getAt d5 i .vote_count = getAt df i .vote_count := by
    rw [hd5, getAt_enrichFranchise_ne _ i (by decide),
      getAt_enrichRuntime_ne _ i (by decide),
      getAt_enrichDates_ne _ i (by decide) (by decide) (by decide),
      getAt_enrichRoi_ne _ i (by decide), getAt_enrichProfit_ne _ i (by decide)]
  have hva : getAt d5 i .vote_average = getAt df i .vote_average := by
    rw [hd5, getAt_enrichFranchise_ne _ i (by decide),
      getAt_enrichRuntime_ne _ i (by decide),
      getAt_enrichDates_ne _ i (by decide) (by decide) (by decide),
      getAt_enrichRoi_ne _ i (by decide), getAt_enrichProfit_ne _ i (by decide)]
  have hlen : d5.rows.length = df.rows.length := by
    rw [hd5, length_enrichFranchise, length_enrichRuntime, length_enrichDates,
      length_enrichRoi, length_enrichProfit]
  have hmemva : Col.vote_average ∈ d5.cols ↔ Col.vote_average ∈ df.cols := by
    rw [hd5, mem_cols_enrichFranchise _ (by decide),
      mem_cols_enrichRuntime _ (by decide),
      mem_cols_enrichDates _ (by decide) (by decide),
      mem_cols_enrichRoi _ (by decide), mem_cols_enrichProfit _ (by decide)]
  have hmemvc : Col.vote_count ∈ d5.cols ↔ Col.vote_count ∈ df.cols := by
    rw [hd5, mem_cols_enrichFranchise _ (by decide),
      mem_cols_enrichRuntime _ (by decide),
      mem_cols_enrichDates _ (by decide) (by decide),
      mem_cols_enrichRoi _ (by decide), mem_cols_enrichProfit _ (by decide)]
  have hE : enrich_movies df = enrichVoteScore d5 := rfl
  rw [hE]
  by_cases hg : Col.vote_average ∈ d5.cols ∧ Col.vote_count ∈ d5.cols
  · have hstep : enrichVoteScore d5 = assignColumn d5 .vote_score
        (fun r => voteScoreCell (r.get .vote_count) (r.get .vote_average)) := by
      unfold enrichVoteScore; exact if_pos hg
    by_cases hi : i < d5.rows.length
    · rw [hstep, getAt_assignColumn_self d5 _ i hi]
      show voteScoreCell ((rowAt d5 i).get .vote_count)
          ((rowAt d5 i).get .vote_average) = _
      have hvc' : (rowAt d5 i).get .vote_count = getAt df i .vote_count := hvc
      have hva' : (rowAt d5 i).get .vote_average = getAt df i .vote_average := hva
      rw [hvc', hva']
      exact voteScoreCell_eq_spec _ _
    · have h1 : getAt (assignColumn d5 .vote_score
          (fun r => voteScoreCell (r.get .vote_count) (r.get .vote_average))) i
            .vote_score = none := by
        apply getAt_eq_none_of_ge
        rw [length_assignColumn]; omega
      have h2 : getAt df i .vote_count = none := by
        apply getAt_eq_none_of_ge; omega
      rw [hstep, h1, h2]
      rfl
  · have hstep : enrichVoteScore d5 = d5 := by unfold enrichVoteScore; exact if_neg hg
    have hnone : getAt d5 i .vote_score = none := by
      rw [hd5, getAt_enrichFranchise_ne _ i (by decide),
        getAt_enrichRuntime_ne _ i (by decide),
        getAt_enrichDates_ne _ i (by decide) (by decide) (by decide),
        getAt_enrichRoi_ne _ i (by decide), getAt_enrichProfit_ne _ i (by decide)]
      exact getAt_eq_none_of_wf df hwf hvs i
    rw [hstep, hnone]
    rcases Decidable.not_and_iff_or_not.mp hg with h | h
    · have : getAt df i .vote_average = none :=
        getAt_eq_none_of_wf df hwf (fun hc => h (hmemva.mpr hc)) i
      rw [this]
      cases hq : toQ (getAt df i .vote_count) <;> rfl
    · have : getAt df i .vote_count = none :=
        getAt_eq_none_of_wf df hwf (fun hc => h (hmemvc.mpr hc)) i
      rw [this]
      rfl

/-- A frame with one movie: 100 votes at rating 8. -/
def frameC4 : Frame :=
  { cols := [.vote_count, .vote_average],
    rows := [[(Col.vote_count, some (.num 100)), (Col.vote_average, some (.num 8))]] }

/-- C4 counterexample: the claim calls the smoothing constant
configurable, but `enrich_movies` computes with `K = 100` baked in — at
100 votes and rating 8 the produced score is the `K = 100` value of the
spec formula and differs from the value the formula gives at any other
smoothing strength, e.g. `K = 50`. -/
theorem C4_counterexample :
    getAt (enrich_movies frameC4) 0 .vote_score
        = (vote_score_spec 100 (some 100) (some 8)).map Value.num
    ∧ getAt (enrich_movies frameC4) 0 .vote_score
        ≠ (vote_score_spec 50 (some 100) (some 8)).map Value.num := by
  have h1 : getAt (enrich_movies frameC4) 0 .vote_score
      = (vote_score_spec 100 (some 100) (some 8)).map Value.num := rfl
  refine ⟨h1, ?_⟩
  rw [h1]
  intro h
  have h2 : (100 / (100 + 100) * 8 : ℚ) = 100 / (100 + 50) * 8 := by
    have h3 := Option.some.inj h
    exact Value.num.inj h3
  norm_num at h2

/-- C4 witness: the amended theorem applied to `frameC4`, where the score
is present (non-vacuous). -/
theorem C4_vote_score_witness :
    frameC4.WF ∧ ¬ Col.vote_score ∈ frameC4.cols ∧
    (getAt (enrich_movies frameC4) 0 .vote_score).isSome = true ∧
    getAt (enrich_movies frameC4) 0 .vote_score
      = (vote_score_spec 100 (toQ (getAt frameC4 0 .vote_count))
          (toQ (getAt frameC4 0 .vote_average))).map Value.num :=
  ⟨by decide, by decide, by decide, C4_vote_score frameC4 (by decide) (by decide) 0⟩

/-! ### Claim C9 — enrichment is additive -/

/-- `df'` extends `df`: same number of rows, the original columns as a
prefix of the new column list, and every original column's cells
unchanged in every row. -/
def Extends (df df' : Frame) : Prop :=
  df'.rows.length = df.rows.length ∧
  (∃ ext, df'.cols = df.cols ++ ext) ∧
  ∀ c ∈ df.cols, ∀ i, getAt df' i c = getAt df i c

theorem Extends.refl (df : Frame) : Extends df df :=
  ⟨rfl, ⟨[], by simp⟩, fun _ _ _ => rfl⟩

theorem Extends.trans {a b c : Frame} (h1 : Extends a b) (h2 : Extends b c) :
    Extends a c := by
  obtain ⟨l1, ⟨e1, hc1⟩, g1⟩ := h1
  obtain ⟨l2, ⟨e2, hc2⟩, g2⟩ := h2
  refine ⟨l2.trans l1, ⟨e1 ++ e2, by rw [hc2, hc1, List.append_assoc]⟩, ?_⟩
  intro x hx i
  rw [g2 x (by rw [hc1]; exact List.mem_append_left _ hx) i, g1 x hx i]

/-- Assigning a genuinely new column extends the frame. -/
theorem extends_assignColumn (df : Frame) {c : Col} (f : Row → Cell)
    (h : ¬ c ∈ df.cols) : Extends df (assignColumn df c f) := by
  refine ⟨length_assignColumn df c f, ⟨[c], by rw [cols_assignColumn, if_neg h]⟩, ?_⟩
  intro x hx i
  exact getAt_assignColumn_ne df f i (fun he => h (he ▸ hx))

/-- Re-applying a per-cell map that fixes every cell of the column
extends (in fact preserves) the frame. -/
theorem extends_applyToColumn_of_id (df : Frame) {c : Col} (f : Cell → Cell)
    (h : ∀ i, i < df.rows.length → f (getAt df i c) = getAt df i c) :
    Extends df (applyToColumn df c f) := by
  refine ⟨length_applyToColumn df c f, ⟨[], by rw [cols_applyToColumn]; simp⟩, ?_⟩
  intro x hx i
  by_cases hxc : x = c
  · subst hxc
    by_cases hi : i < df.rows.length
    · rw [getAt_applyToColumn_self df f i hx hi, h i hi]
    · have hl : (applyToColumn df x f).rows.length = df.rows.length :=
        length_applyToColumn df x f
      rw [getAt_eq_none_of_ge _ i x (by omega),
        getAt_eq_none_of_ge df i x (by omega)]
  · exact getAt_applyToColumn_ne df f i hxc

/-- Boolean check that a cell is a datetime or missing (the shape of
`release_date` in every cleaned batch). -/
def dateTypedCell : Cell → Bool
  | none => true
  | some (.vdate _) => true
  | _ => false

theorem toDatetimeCell_of_typed {v : Cell} (h : dateTypedCell v = true) :
    toDatetimeCell v = v := by
  cases v with
  | none => rfl
  | some w => cases w with
    | vdate d => rfl
    | num q => simp [dateTypedCell] at h
    | vstr s => simp [dateTypedCell] at h
    | vbool b => simp [dateTypedCell] at h

/-- C9 (amended): on a cleaned batch that does not already carry any of
the derived columns (the situation the cleaning stage produces from raw
extraction data), enrichment removes no rows, only appends new columns at
the end, and never changes an existing column's value — in particular it
never turns a present value into missing. -/
theorem C9_enrich_extends (df : Frame)
    (h1 : ¬ Col.profit_musd ∈ df.cols) (h2 : ¬ Col.roi ∈ df.cols)
    (h3 : ¬ Col.release_year ∈ df.cols) (h4 : ¬ Col.release_month ∈ df.cols)
    (h5 : ¬ Col.runtime_category ∈ df.cols) (h6 : ¬ Col.is_franchise ∈ df.cols)
    (h7 : ¬ Col.vote_score ∈ df.cols)
    (hdate : ∀ i < df.rows.length, dateTypedCell (getAt df i .release_date) = true) :
    Extends df (enrich_movies df) := by
  have e1 : Extends df (enrichProfit df) := by
    unfold enrichProfit; split
    · exact extends_assignColumn df _ h1
    · exact Extends.refl df
  set d1 := enrichProfit df with hd1
  have hm1 : ∀ {c : Col}, c ≠ .profit_musd → ¬ c ∈ df.cols → ¬ c ∈ d1.cols :=
    fun hne hdf hc => hdf ((mem_cols_enrichProfit df hne).mp hc)
  have e2 : Extends d1 (enrichRoi d1) := by
    unfold enrichRoi; split
    · exact extends_assignColumn d1 _ (hm1 (by decide) h2)
    · exact Extends.refl d1
  set d2 := enrichRoi d1 with hd2
  have hm2 : ∀ {c : Col}, c ≠ .profit_musd → c ≠ .roi → ¬ c ∈ df.cols →
      ¬ c ∈ d2.cols :=
    fun hne1 hne2 hdf hc =>
      hm1 hne1 hdf ((mem_cols_enrichRoi d1 hne2).mp hc)
  have hlen2 : d2.rows.length = df.rows.length := by
    rw [hd2, length_enrichRoi, hd1, length_enrichProfit]
  have e3 : Extends d2 (enrichDates d2) := by
    unfold enrichDates; split
    · have edt : Extends d2 (applyToColumn d2 .release_date toDatetimeCell) := by
        apply extends_applyToColumn_of_id
        intro i hi
        have hrd : getAt d2 i .release_date = getAt df i .release_date := by
          rw [hd2, getAt_enrichRoi_ne _ i (by decide), hd1,
            getAt_enrichProfit_ne _ i (by decide)]
        rw [hrd]
        exact toDatetimeCell_of_typed (hdate i (by omega))
      have eyr : Extends (applyToColumn d2 .release_date toDatetimeCell)
          (assignColumn (applyToColumn d2 .release_date toDatetimeCell)
            .release_year (fun r => yearCell (r.get .release_date))) := by
        apply extends_assignColumn
        rw [cols_applyToColumn]
        exact hm2 (by decide) (by decide) h3
      have emo : Extends (assignColumn (applyToColumn d2 .release_date toDatetimeCell)
            .release_year (fun r => yearCell (r.get .release_date)))
          (assignColumn (assignColumn (applyToColumn d2 .release_date toDatetimeCell)
            .release_year (fun r => yearCell (r.get .release_date)))
            .release_month (fun r => monthCell (r.get .release_date))) := by
        apply extends_assignColumn
        intro hc
        have hc2 := (mem_cols_assignColumn_ne _ _ (by decide)).mp hc
        rw [cols_applyToColumn] at hc2
        exact hm2 (by decide) (by decide) h4 hc2
      exact edt.trans (eyr.trans emo)
    · exact Extends.refl d2
  set d3 := enrichDates d2 with hd3
  have hm3 : ∀ {c : Col}, c ≠ .profit_musd → c ≠ .roi → c ≠ .release_year →
      c ≠ .release_month → ¬ c ∈ df.cols → ¬ c ∈ d3.cols :=
    fun hne1 hne2 hne3 hne4 hdf hc =>
      hm2 hne1 hne2 hdf ((mem_cols_enrichDates d2 hne3 hne4).mp hc)
  have e4 : Extends d3 (enrichRuntime d3) := by
    unfold enrichRuntime; split
    · exact extends_assignColumn d3 _
        (hm3 (by decide) (by decide) (by decide) (by decide) h5)
    · exact Extends.refl d3
  set d4 := enrichRuntime d3 with hd4
  have hm4 : ∀ {c : Col}, c ≠ .profit_musd → c ≠ .roi → c ≠ .release_year →
      c ≠ .release_month → c ≠ .runtime_category → ¬ c ∈ df.cols → ¬ c ∈ d4.cols :=
    fun hne1 hne2 hne3 hne4 hne5 hdf hc =>
      hm3 hne1 hne2 hne3 hne4 hdf ((mem_cols_enrichRuntime d3 hne5).mp hc)
  have e5 : Extends d4 (enrichFranchise d4) := by
    unfold enrichFranchise; split
    · exact extends_assignColumn d4 _
        (hm4 (by decide) (by decide) (by decide) (by decide) (by decide) h6)
    · exact Extends.refl d4
  set d5 := enrichFranchise d4 with hd5
  have hm5 : ¬ Col.vote_score ∈ d5.cols :=
    fun hc =>
      hm4 (by decide) (by decide) (by decide) (by decide) (by decide) h7
        ((mem_cols_enrichFranchise d4 (by decide)).mp hc)
  have e6 : Extends d5 (enrichVoteScore d5) := by
    unfold enrichVoteScore; split
    · exact extends_assignColumn d5 _ hm5
    · exact Extends.refl d5
  exact e1.trans (e2.trans (e3.trans (e4.trans (e5.trans e6))))

/-- A raw extraction batch that carries an extra `roi` column; all other
values are ordinary.  The row has no budget, so its own roi cannot be
recomputed. -/
def rawC9 : Frame :=
  { cols := [.id, .title, .budget, .revenue, .runtime, .popularity, .vote_count,
             .vote_average, .overview, .tagline, .status, .roi],
    rows := [[(Col.id, some (.num 1)), (Col.title, some (.vstr "A")),
              (Col.budget, none), (Col.revenue, some (.num 100)),
              (Col.runtime, some (.num 120)), (Col.popularity, some (.num 9)),
              (Col.vote_count, some (.num 50)), (Col.vote_average, some (.num 7)),
              (Col.overview, some (.vstr "x")), (Col.tagline, some (.vstr "y")),
              (Col.status, some (.vstr "Released")), (Col.roi, some (.num 5))]] }

/-- C9 counterexample: a cleaned batch (an actual `clean_movies` output)
in which `roi` is a present column with a present value; enriching it
overwrites that column and turns the present value into missing — so
enrichment does not, for every cleaned batch, leave existing columns
unchanged. -/
theorem C9_counterexample :
    Col.roi ∈ (clean_movies rawC9).cols ∧
    getAt (clean_movies rawC9) 0 .roi = some (.num 5) ∧
    getAt (enrich_movies (clean_movies rawC9)) 0 .roi = none := by
  exact ⟨by decide, by decide, by decide⟩

/-- A cleaned-shaped batch without derived columns, for the C9 witness. -/
def frameC9 : Frame :=
  { cols := [.budget_musd, .revenue_musd, .release_date],
    rows := [[(Col.budget_musd, some (.num 2)), (Col.revenue_musd, some (.num 6)),
              (Col.release_date, some (.vdate ⟨2020, 1, 2⟩))]] }

/-- C9 witness: the hypotheses hold for `frameC9` and the amended theorem
applies. -/
theorem C9_enrich_extends_witness :
    (¬ Col.profit_musd ∈ frameC9.cols) ∧ (¬ Col.roi ∈ frameC9.cols) ∧
    (¬ Col.release_year ∈ frameC9.cols) ∧ (¬ Col.release_month ∈ frameC9.cols) ∧
    (¬ Col.runtime_category ∈ frameC9.cols) ∧ (¬ Col.is_franchise ∈ frameC9.cols) ∧
    (¬ Col.vote_score ∈ frameC9.cols) ∧
    (∀ i < frameC9.rows.length, dateTypedCell (getAt frameC9 i .release_date) = true) ∧
    Extends frameC9 (enrich_movies frameC9) :=
  ⟨by decide, by decide, by decide, by decide, by decide, by decide, by decide,
   by decide,
   C9_enrich_extends frameC9 (by decide) (by decide) (by decide) (by decide)
     (by decide) (by decide) (by decide) (by decide)⟩

/-! ### Claim C2 — stored zeros become missing -/

/-- Zero replacement never leaves a stored zero behind. -/
theorem zeroToNan_ne_zero (w : Cell) : zeroToNan w ≠ some (.num 0) := by
  cases w with
  | none => simp [zeroToNan]
  | some v =>
      cases v with
      | num q =>
          by_cases hq : q = 0
          · simp [zeroToNan, hq]
          · simp only [zeroToNan, if_neg hq]
            intro h
            exact hq (Value.num.inj (Option.some.inj h))
      | vstr s => simp [zeroToNan]
      | vbool b => simp [zeroToNan]
      | vdate d => simp [zeroToNan]

/-- Reading through a conditional column assignment of another column. -/
theorem getAt_ite_assign_ne (P : Prop) [Decidable P] (df : Frame) {c c' : Col}
    (f : Row → Cell) (i : ℕ) (h : c' ≠ c) :
    getAt (if P then assignColumn df c f else df) i c' = getAt df i c' := by
  split
  · exact getAt_assignColumn_ne df f i h
  · rfl

/-- Row count through a conditional column assignment. -/
theorem length_ite_assign (P : Prop) [Decidable P] (df : Frame) (c : Col)
    (f : Row → Cell) :
    (if P then assignColumn df c f else df).rows.length = df.rows.length := by
  split
  · exact length_assignColumn df c f
  · rfl

/-- Membership of `COLUMNS_TO_DROP` survivors in step 1's output. -/
theorem mem_cols_cleanStep1 (df : Frame) {c : Col} (h : ¬ c ∈ COLUMNS_TO_DROP) :
    c ∈ (cleanStep1 df).cols ↔ c ∈ df.cols := by
  unfold cleanStep1 dropColumns
  simp only [List.mem_filter, decide_eq_true_eq]
  exact ⟨fun hx => hx.1, fun hx => ⟨hx, h⟩⟩

/-- Step 1 leaves every cell unchanged. -/
theorem getAt_cleanStep1 (df : Frame) (i : ℕ) (c : Col) :
    getAt (cleanStep1 df) i c = getAt df i c := rfl

/-- Cells outside the five parsed columns are unchanged by step 2. -/
theorem getAt_cleanStep2_ne (df : Frame) (i : ℕ) {c : Col}
    (h1 : c ≠ .belongs_to_collection) (h2 : c ≠ .genres)
    (h3 : c ≠ .spoken_languages) (h4 : c ≠ .production_countries)
    (h5 : c ≠ .production_companies) :
    getAt (cleanStep2 df) i c = getAt df i c := by
  unfold cleanStep2
  rw [getAt_applyToColumn_ne _ _ i h5, getAt_applyToColumn_ne _ _ i h4,
    getAt_applyToColumn_ne _ _ i h3, getAt_applyToColumn_ne _ _ i h2,
    getAt_applyToColumn_ne _ _ i h1]

/-- Step 2 preserves the column list. -/
theorem cols_cleanStep2 (df : Frame) : (cleanStep2 df).cols = df.cols := by
  unfold cleanStep2
  rw [cols_applyToColumn, cols_applyToColumn, cols_applyToColumn,
    cols_applyToColumn, cols_applyToColumn]

/-- Step 3 preserves the column list. -/
theorem cols_cleanStep3 (df : Frame) : (cleanStep3 df).cols = df.cols := by
  unfold cleanStep3
  rw [cols_applyToColumn, cols_applyToColumn, cols_applyToColumn,
    cols_applyToColumn, cols_applyToColumn, cols_applyToColumn,
    cols_applyToColumn, cols_applyToColumn]

/-- Cells outside the coerced columns are unchanged by step 3. -/
theorem getAt_cleanStep3_ne (df : Frame) (i : ℕ) {c : Col}
    (h1 : c ≠ .budget) (h2 : c ≠ .id) (h3 : c ≠ .popularity) (h4 : c ≠ .revenue)
    (h5 : c ≠ .runtime) (h6 : c ≠ .vote_count) (h7 : c ≠ .vote_average)
    (h8 : c ≠ .release_date) :
    getAt (cleanStep3 df) i c = getAt df i c := by
  unfold cleanStep3
  rw [getAt_applyToColumn_ne _ _ i h8, getAt_applyToColumn_ne _ _ i h7,
    getAt_applyToColumn_ne _ _ i h6, getAt_applyToColumn_ne _ _ i h5,
    getAt_applyToColumn_ne _ _ i h4, getAt_applyToColumn_ne _ _ i h3,
    getAt_applyToColumn_ne _ _ i h2, getAt_applyToColumn_ne _ _ i h1]

/-- After step 4, no budget/revenue/runtime cell stores a zero: the zero
replacement scrubs any zero where the column is present, and an absent
column reads missing throughout (given that it read missing before). -/
theorem cleanStep4_no_zero (df : Frame) (c : Col)
    (hc : c = .budget ∨ c = .revenue ∨ c = .runtime)
    (habs : ¬ c ∈ df.cols → ∀ i, getAt df i c = none) (i : ℕ) :
    getAt (cleanStep4 df) i c ≠ some (.num 0) := by
  -- reduce to the value right after this column's zero replacement
  unfold cleanStep4 addMusd
  rcases hc with hc | hc | hc <;> subst hc
  · -- budget: replaced first, untouched afterwards
    rw [getAt_applyToColumn_ne _ _ i (by decide),
      getAt_applyToColumn_ne _ _ i (by decide),
      getAt_ite_assign_ne _ _ _ i (by decide),
      getAt_ite_assign_ne _ _ _ i (by decide),
      getAt_applyToColumn_ne _ _ i (by decide),
      getAt_applyToColumn_ne _ _ i (by decide)]
    by_cases hb : Col.budget ∈ df.cols
    · by_cases hi : i < df.rows.length
      · rw [getAt_applyToColumn_self df zeroToNan i hb hi]
        exact zeroToNan_ne_zero _
      · rw [getAt_eq_none_of_ge _ i _ (by rw [length_applyToColumn]; omega)]
        simp
    · rw [applyToColumn_absent df zeroToNan hb, habs hb i]
      simp
  · -- revenue: replaced second
    rw [getAt_applyToColumn_ne _ _ i (by decide),
      getAt_applyToColumn_ne _ _ i (by decide),
      getAt_ite_assign_ne _ _ _ i (by decide),
      getAt_ite_assign_ne _ _ _ i (by decide),
      getAt_applyToColumn_ne _ _ i (by decide)]
    by_cases hb : Col.revenue ∈ (applyToColumn df .budget zeroToNan).cols
    · by_cases hi : i < (applyToColumn df .budget zeroToNan).rows.length
      · rw [getAt_applyToColumn_self _ zeroToNan i hb hi]
        exact zeroToNan_ne_zero _
      · rw [getAt_eq_none_of_ge _ i _ (by rw [length_applyToColumn]; omega)]
        simp
    · rw [applyToColumn_absent _ zeroToNan hb,
        getAt_applyToColumn_ne _ _ i (by decide)]
      rw [cols_applyToColumn] at hb
      rw [habs hb i]
      simp
  · -- runtime: replaced third
    rw [getAt_applyToColumn_ne _ _ i (by decide),
      getAt_applyToColumn_ne _ _ i (by decide),
      getAt_ite_assign_ne _ _ _ i (by decide),
      getAt_ite_assign_ne _ _ _ i (by decide)]
    set z2 := applyToColumn (applyToColumn df .budget zeroToNan) .revenue zeroToNan
      with hz2
    by_cases hb : Col.runtime ∈ z2.cols
    · by_cases hi : i < z2.rows.length
      · rw [getAt_applyToColumn_self _ zeroToNan i hb hi]
        exact zeroToNan_ne_zero _
      · rw [getAt_eq_none_of_ge _ i _ (by rw [length_applyToColumn]; omega)]
        simp
    · rw [applyToColumn_absent _ zeroToNan hb, hz2,
        getAt_applyToColumn_ne _ _ i (by decide),
        getAt_applyToColumn_ne _ _ i (by decide)]
      rw [hz2, cols_applyToColumn, cols_applyToColumn] at hb
      rw [habs hb i]
      simp

/-- An absent, all-missing column stays absent and all-missing through any
single-column transform. -/
theorem absent_invariant_apply (d : Frame) (c c' : Col) (g : Cell → Cell)
    (h : (¬ c ∈ d.cols) ∧ ∀ j, getAt d j c = none) :
    (¬ c ∈ (applyToColumn d c' g).cols) ∧
      ∀ j, getAt (applyToColumn d c' g) j c = none := by
  refine ⟨by rw [cols_applyToColumn]; exact h.1, ?_⟩
  intro j
  by_cases he : c = c'
  · subst he
    rw [applyToColumn_absent d g h.1]
    exact h.2 j
  · rw [getAt_applyToColumn_ne d g j he]
    exact h.2 j

/-- A column absent from a well-formed input reads missing everywhere
after steps 1–3. -/
theorem getAt_none_steps123 (df : Frame) (hwf : df.WF) (c : Col)
    (hc : ¬ c ∈ df.cols) :
    (¬ c ∈ (cleanStep3 (cleanStep2 (cleanStep1 df))).cols) ∧
      ∀ j, getAt (cleanStep3 (cleanStep2 (cleanStep1 df))) j c = none := by
  have h1 : (¬ c ∈ (cleanStep1 df).cols) ∧ ∀ j, getAt (cleanStep1 df) j c = none := by
    constructor
    · intro hmem
      exact hc (List.mem_of_mem_filter hmem)
    · intro j
      rw [getAt_cleanStep1]
      exact getAt_eq_none_of_wf df hwf hc j
  have h2 : (¬ c ∈ (cleanStep2 (cleanStep1 df)).cols) ∧
      ∀ j, getAt (cleanStep2 (cleanStep1 df)) j c = none := by
    unfold cleanStep2
    exact absent_invariant_apply _ _ _ _ (absent_invariant_apply _ _ _ _
      (absent_invariant_apply _ _ _ _ (absent_invariant_apply _ _ _ _
        (absent_invariant_apply _ _ _ _ h1))))
  unfold cleanStep3
  exact absent_invariant_apply _ _ _ _ (absent_invariant_apply _ _ _ _
    (absent_invariant_apply _ _ _ _ (absent_invariant_apply _ _ _ _
      (absent_invariant_apply _ _ _ _ (absent_invariant_apply _ _ _ _
        (absent_invariant_apply _ _ _ _ (absent_invariant_apply _ _ _ _ h2)))))))

/-- Rows kept by the dedup pass come from the input. -/
theorem mem_of_dedupById (rows : List Row) (seen : List Cell) (r : Row)
    (h : r ∈ dedupById rows seen) : r ∈ rows := by
  induction rows generalizing seen with
  | nil =>
      rw [dedupById] at h
      exact absurd h (List.not_mem_nil r)
  | cons a as ih =>
      by_cases hm : a.get .id ∈ seen
      · rw [dedupById, if_pos hm] at h
        exact List.mem_cons_of_mem a (ih seen h)
      · rw [dedupById, if_neg hm] at h
        rcases List.mem_cons.mp h with h | h
        · exact h ▸ List.mem_cons_self a as
        · exact List.mem_cons_of_mem a (ih _ h)

/-- Step 7 does not change the rows. -/
theorem rows_cleanStep7 (df : Frame) : (cleanStep7 df).rows = df.rows := rfl

/-- Rows of step 6's output come from its input. -/
theorem mem_rows_cleanStep6 (d : Frame) (r : Row) (h : r ∈ (cleanStep6 d).rows) :
    r ∈ d.rows := by
  unfold cleanStep6 at h
  split at h
  · exact List.mem_of_mem_filter h
  · exact h

/-- Rows of step 5c's output come from its input. -/
theorem mem_rows_cleanStep5c (d : Frame) (r : Row) (h : r ∈ (cleanStep5c d).rows) :
    r ∈ d.rows :=
  List.mem_of_mem_filter h

/-- Rows of step 5b's output come from its input. -/
theorem mem_rows_cleanStep5b (d : Frame) (r : Row) (h : r ∈ (cleanStep5b d).rows) :
    r ∈ d.rows := by
  unfold cleanStep5b at h
  split at h
  · exact List.mem_of_mem_filter h
  · exact h

/-- Rows of step 5a's output come from its input. -/
theorem mem_rows_cleanStep5a (d : Frame) (r : Row) (h : r ∈ (cleanStep5a d).rows) :
    r ∈ d.rows := by
  unfold cleanStep5a at h
  split at h
  · exact mem_of_dedupById _ _ _ h
  · exact h

/-- Every row of the cleaned output comes from the step-4 output. -/
theorem mem_rows_clean_of_step4 (df : Frame) (r : Row)
    (hr : r ∈ (clean_movies df).rows) :
    r ∈ (cleanStep4 (cleanStep3 (cleanStep2 (cleanStep1 df)))).rows := by
  unfold clean_movies at hr
  rw [rows_cleanStep7] at hr
  exact mem_rows_cleanStep5a _ _ (mem_rows_cleanStep5b _ _
    (mem_rows_cleanStep5c _ _ (mem_rows_cleanStep6 _ _ hr)))

/-- A member row is the row at some index. -/
theorem exists_index_of_mem {rows : List Row} {r : Row} (h : r ∈ rows) :
    ∃ i : ℕ, rows[i]? = some r :=
  List.mem_iff_getElem?.mp h

/-- The first row of a non-empty frame is one of its rows. -/
theorem rowAt_zero_mem (df : Frame) (h : 0 < df.rows.length) :
    rowAt df 0 ∈ df.rows := by
  unfold rowAt
  cases hr : df.rows[0]? with
  | none =>
      rw [List.getElem?_eq_none_iff] at hr
      omega
  | some r => exact List.getElem?_mem hr

/-- The two raw records of scenario A: the first stores budget 0 and
revenue 100. -/
def rawC2 : Frame :=
  { cols := [.id, .title, .budget, .revenue, .runtime, .popularity, .vote_count,
             .vote_average, .overview, .tagline, .status],
    rows := [
      [(Col.id, some (.num 1)), (Col.title, some (.vstr "M1")),
       (Col.budget, some (.num 0)), (Col.revenue, some (.num 100)),
       (Col.runtime, some (.num 100)), (Col.popularity, some (.num 5)),
       (Col.vote_count, some (.num 10)), (Col.vote_average, some (.num 7)),
       (Col.overview, some (.vstr "o1")), (Col.tagline, some (.vstr "t1")),
       (Col.status, some (.vstr "Released"))],
      [(Col.id, some (.num 2)), (Col.title, some (.vstr "M2")),
       (Col.budget, some (.num 50)), (Col.revenue, some (.num 200)),
       (Col.runtime, some (.num 110)), (Col.popularity, some (.num 6)),
       (Col.vote_count, some (.num 20)), (Col.vote_average, some (.num 6)),
       (Col.overview, some (.vstr "o2")), (Col.tagline, some (.vstr "t2")),
       (Col.status, some (.vstr "Released"))]] }

/-- C2: cleaning never leaves a stored zero in budget, revenue or runtime
(they become missing); and in scenario A — two records, the first with
budget 0 and revenue 100 — the cleaned budget is missing and the enriched
profit and return ratio are both missing. -/
theorem C2_zero_becomes_missing :
    (∀ df : Frame, df.WF → ∀ r ∈ (clean_movies df).rows,
      r.get .budget ≠ some (.num 0) ∧ r.get .revenue ≠ some (.num 0) ∧
        r.get .runtime ≠ some (.num 0))
    ∧ getAt (clean_movies rawC2) 0 .budget = none
    ∧ getAt (clean_movies rawC2) 0 .id = some (.num 1)
    ∧ (clean_movies rawC2).rows.length = 2
    ∧ getAt (enrich_movies (clean_movies rawC2)) 0 .profit_musd = none
    ∧ getAt (enrich_movies (clean_movies rawC2)) 0 .roi = none := by
  refine ⟨?_, by decide, by decide, by decide, by decide, by decide⟩
  intro df hwf r hr
  have hr4 := mem_rows_clean_of_step4 df r hr
  obtain ⟨i, hi⟩ := exists_index_of_mem hr4
  set d3 := cleanStep3 (cleanStep2 (cleanStep1 df)) with hd3
  have hget : ∀ c, getAt (cleanStep4 d3) i c = r.get c := by
    intro c
    unfold getAt rowAt
    rw [hi]
    rfl
  have habs : ∀ c, ¬ c ∈ df.cols → ∀ j, getAt d3 j c = none := by
    intro c hc j
    exact (getAt_none_steps123 df hwf c hc).2 j
  have hmem3 : ∀ c, ¬ c ∈ COLUMNS_TO_DROP → (¬ c ∈ d3.cols → ¬ c ∈ df.cols) := by
    intro c hcd h hmem
    rw [hd3, cols_cleanStep3, cols_cleanStep2] at h
    exact h ((mem_cols_cleanStep1 df hcd).mpr hmem)
  refine ⟨?_, ?_, ?_⟩
  · rw [← hget .budget]
    exact cleanStep4_no_zero d3 .budget (Or.inl rfl)
      (fun hb => habs _ (hmem3 _ (by decide) hb)) i
  · rw [← hget .revenue]
    exact cleanStep4_no_zero d3 .revenue (Or.inr (Or.inl rfl))
      (fun hb => habs _ (hmem3 _ (by decide) hb)) i
  · rw [← hget .runtime]
    exact cleanStep4_no_zero d3 .runtime (Or.inr (Or.inr rfl))
      (fun hb => habs _ (hmem3 _ (by decide) hb)) i

/-- C2 witness: the general part applied to the scenario-A batch, at its
first cleaned row. -/
theorem C2_zero_becomes_missing_witness :
    rawC2.WF ∧ rowAt (clean_movies rawC2) 0 ∈ (clean_movies rawC2).rows ∧
    ((rowAt (clean_movies rawC2) 0).get .budget ≠ some (.num 0) ∧
      (rowAt (clean_movies rawC2) 0).get .revenue ≠ some (.num 0) ∧
      (rowAt (clean_movies rawC2) 0).get .runtime ≠ some (.num 0)) :=
  ⟨by decide,
    rowAt_zero_mem (clean_movies rawC2) (by decide),
    C2_zero_becomes_missing.1 rawC2 (by decide) _
      (rowAt_zero_mem (clean_movies rawC2) (by decide))⟩

/-! ### Claim C5 — behavior when the identity/name columns are absent -/

/-- Membership through a conditional column assignment, for another
column. -/
theorem mem_cols_ite_assign_ne (P : Prop) [Decidable P] (d : Frame)
    {c c' : Col} (f : Row → Cell) (h : c' ≠ c) :
    c' ∈ (if P then assignColumn d c f else d).cols ↔ c' ∈ d.cols := by
  split
  · exact mem_cols_assignColumn_ne d f h
  · exact Iff.rfl

/-- Step 4 adds only the two scaled monetary columns. -/
theorem cols_cleanStep4_not_mem (df : Frame) {c : Col} (h : ¬ c ∈ df.cols)
    (h1 : c ≠ .budget_musd) (h2 : c ≠ .revenue_musd) :
    ¬ c ∈ (cleanStep4 df).cols := by
  unfold cleanStep4 addMusd
  rw [cols_applyToColumn, cols_applyToColumn,
    mem_cols_ite_assign_ne _ _ _ h2, mem_cols_ite_assign_ne _ _ _ h1,
    cols_applyToColumn, cols_applyToColumn, cols_applyToColumn]
  exact h

/-- Dedup does not change the column list. -/
theorem cols_cleanStep5a (d : Frame) : (cleanStep5a d).cols = d.cols := by
  unfold cleanStep5a
  split <;> rfl

/-- C5 (amended): when the identity column or the display-name column is
entirely absent, `clean_movies` silently skips the identity/name row
check (whose guard requires both columns) and performs the remaining
cleaning unchanged; it does not return an empty result. -/
theorem C5_absent_title_skips_check (df : Frame)
    (h : ¬ Col.id ∈ df.cols ∨ ¬ Col.title ∈ df.cols) :
    clean_movies df = cleanWithoutIdTitleCheck df := by
  unfold clean_movies cleanWithoutIdTitleCheck
  have hX : ∀ c : Col, c = Col.id ∨ c = Col.title → ¬ c ∈ df.cols →
      ¬ c ∈ (cleanStep5a (cleanStep4 (cleanStep3 (cleanStep2
        (cleanStep1 df))))).cols := by
    intro c hc hnc
    rw [cols_cleanStep5a]
    apply cols_cleanStep4_not_mem _ _
      (by rcases hc with h1 | h1 <;> subst h1 <;> decide)
      (by rcases hc with h1 | h1 <;> subst h1 <;> decide)
    rw [cols_cleanStep3, cols_cleanStep2]
    intro hm
    exact hnc ((mem_cols_cleanStep1 df
      (by rcases hc with h1 | h1 <;> subst h1 <;> decide)).mp hm)
  have h5b : cleanStep5b (cleanStep5a (cleanStep4 (cleanStep3 (cleanStep2
      (cleanStep1 df))))) = cleanStep5a (cleanStep4 (cleanStep3 (cleanStep2
      (cleanStep1 df)))) := by
    unfold cleanStep5b
    refine if_neg (fun hc => ?_)
    rcases h with hid | hti
    · exact hX Col.id (Or.inl rfl) hid hc.1
    · exact hX Col.title (Or.inr rfl) hti hc.2
  rw [h5b]

/-- A raw batch with no title column at all; its single row is otherwise
complete. -/
def rawC5 : Frame :=
  { cols := [.id, .budget, .revenue, .runtime, .popularity, .vote_count,
             .vote_average, .overview, .tagline, .status],
    rows := [
      [(Col.id, some (.num 1)), (Col.budget, some (.num 50)),
       (Col.revenue, some (.num 100)), (Col.runtime, some (.num 100)),
       (Col.popularity, some (.num 5)), (Col.vote_count, some (.num 10)),
       (Col.vote_average, some (.num 7)), (Col.overview, some (.vstr "o")),
       (Col.tagline, some (.vstr "t")), (Col.status, some (.vstr "Released"))]] }

/-- A raw batch with no id column at all; its single row is otherwise
complete. -/
def rawC5b : Frame :=
  { cols := [.title, .budget, .revenue, .runtime, .popularity, .vote_count,
             .vote_average, .overview, .tagline, .status],
    rows := [
      [(Col.title, some (.vstr "T")), (Col.budget, some (.num 50)),
       (Col.revenue, some (.num 100)), (Col.runtime, some (.num 100)),
       (Col.popularity, some (.num 5)), (Col.vote_count, some (.num 10)),
       (Col.vote_average, some (.num 7)), (Col.overview, some (.vstr "o")),
       (Col.tagline, some (.vstr "t")), (Col.status, some (.vstr "Released"))]] }

/-- C5 counterexample: with the title column entirely absent — and
likewise with the id column entirely absent — the claim requires an empty
result, but `clean_movies` returns a non-empty batch (the identity/name
check was skipped, not enforced). -/
theorem C5_counterexample :
    (¬ Col.title ∈ rawC5.cols ∧ (clean_movies rawC5).rows.length = 1) ∧
    (¬ Col.id ∈ rawC5b.cols ∧ (clean_movies rawC5b).rows.length = 1) :=
  ⟨⟨by decide, by decide⟩, ⟨by decide, by decide⟩⟩

/-- C5 witness: the amended theorem applied to the title-less batch and
to the id-less batch. -/
theorem C5_absent_title_skips_check_witness :
    (¬ Col.title ∈ rawC5.cols ∧
      clean_movies rawC5 = cleanWithoutIdTitleCheck rawC5) ∧
    (¬ Col.id ∈ rawC5b.cols ∧
      clean_movies rawC5b = cleanWithoutIdTitleCheck rawC5b) :=
  ⟨⟨by decide, C5_absent_title_skips_check rawC5 (Or.inr (by decide))⟩,
   ⟨by decide, C5_absent_title_skips_check rawC5b (Or.inl (by decide))⟩⟩

/-! ### Claim C7 — director explode and group counts -/

theorem mem_insertDesc {α : Type} (key : α → ℚ) (a b : α) (l : List α)
    (h : b ∈ insertDesc key a l) : b = a ∨ b ∈ l := by
  induction l with
  | nil =>
      rw [insertDesc] at h
      rcases List.mem_cons.mp h with h | h
      · exact Or.inl h
      · exact absurd h (List.not_mem_nil b)
  | cons x xs ih =>
      rw [insertDesc] at h
      split at h
      · rcases List.mem_cons.mp h with h | h
        · exact Or.inl h
        · exact Or.inr h
      · rcases List.mem_cons.mp h with h | h
        · exact Or.inr (h ▸ List.mem_cons_self x xs)
        · rcases ih h with h | h
          · exact Or.inl h
          · exact Or.inr (List.mem_cons_of_mem x h)

theorem mem_sortDesc {α : Type} (key : α → ℚ) (l : List α) (a : α)
    (h : a ∈ sortDesc key l) : a ∈ l := by
  induction l with
  | nil => exact absurd h (List.not_mem_nil a)
  | cons x xs ih =>
      rw [sortDesc, List.foldr_cons] at h
      rcases mem_insertDesc key x a _ h with h | h
      · exact h ▸ List.mem_cons_self x xs
      · exact List.mem_cons_of_mem x (ih h)

/-- Every exploded record's row is one of the input rows. -/
theorem mem_of_explodeDirectors (rows : List Row) (p : String × Row)
    (h : p ∈ explodeDirectors rows) : p.2 ∈ rows := by
  unfold explodeDirectors at h
  obtain ⟨r, hr, hp⟩ := List.mem_flatMap.mp h
  obtain ⟨d, _, hdr⟩ := List.mem_map.mp hp
  rw [← hdr]
  exact List.mem_of_mem_filter hr

/-- C7 (amended): `get_top_directors` explodes the pipe-joined director
field into trimmed non-empty tokens, one record per token, excluding
rows with a missing director; but each group's `movie_count` is the
pandas `count` of the group's `revenue_musd` — the number of exploded
records whose revenue is present — which equals the number of exploded
records only when every input row carries a revenue value. -/
theorem C7_director_counts (df : Frame) (n m : ℕ) (s : DirectorStats)
    (hs : s ∈ get_top_directors df n m) :
    s.movie_count = ((explodeDirectors df.rows).filter
        (fun p => p.1 = s.director ∧ (p.2.get .revenue_musd).isSome)).length
    ∧ ((∀ r ∈ df.rows, (r.get .revenue_musd).isSome) →
        s.movie_count = ((explodeDirectors df.rows).filter
          (fun p => p.1 = s.director)).length) := by
  unfold get_top_directors at hs
  split at hs
  · exact absurd hs (List.not_mem_nil s)
  · split at hs
    · exact absurd hs (List.not_mem_nil s)
    · have hs1 : s ∈ sortDesc (fun s => s.total_revenue_musd)
          (((directorKeys (explodeDirectors df.rows)).map (fun d =>
            mkDirectorStats d (((explodeDirectors df.rows).filter
              (fun p => p.1 = d)).map (fun p => p.2)))).filter
            (fun s => m ≤ s.movie_count)) :=
        List.mem_of_mem_take hs
      have hs2 := mem_sortDesc _ _ _ hs1
      have hs3 := List.mem_of_mem_filter hs2
      obtain ⟨d, _, hmk⟩ := List.mem_map.mp hs3
      subst hmk
      have hdir : (mkDirectorStats d (((explodeDirectors df.rows).filter
          (fun p => p.1 = d)).map (fun p => p.2))).director = d := rfl
      rw [hdir]
      have hcount : (mkDirectorStats d (((explodeDirectors df.rows).filter
          (fun p => p.1 = d)).map (fun p => p.2))).movie_count
          = ((explodeDirectors df.rows).filter
              (fun p => p.1 = d ∧ (p.2.get .revenue_musd).isSome)).length := by
        show aggCount _ .revenue_musd = _
        unfold aggCount
        rw [List.filter_map, List.length_map, List.filter_filter]
        congr 1
        apply List.filter_congr
        intro p _
        simp [Function.comp, Bool.and_comm]
      constructor
      · exact hcount
      · intro hall
        rw [hcount]
        congr 1
        apply List.filter_congr
        intro p hp
        have : (p.2.get .revenue_musd).isSome = true :=
          hall p.2 (mem_of_explodeDirectors df.rows p hp)
        simp [this]

/-- Scenario B without revenue data: three records with contributor field
`X|Y`, `X`, `Z` and no revenue column. -/
def rawC7 : Frame :=
  { cols := [.id, .director],
    rows := [
      [(Col.id, some (.num 1)), (Col.director, some (.vstr "X|Y"))],
      [(Col.id, some (.num 2)), (Col.director, some (.vstr "X"))],
      [(Col.id, some (.num 3)), (Col.director, some (.vstr "Z"))]] }

/-- C7 counterexample: exploding does yield two records for `X` (and one
each for `Y` and `Z`), but because `movie_count` counts non-missing
revenue values, every group counts 0 here and the result is empty —
not the claimed counts X: 2, Y: 1, Z: 1. -/
theorem C7_counterexample :
    (explodeDirectors rawC7.rows).length = 4 ∧
    ((explodeDirectors rawC7.rows).filter (fun p => p.1 = "X")).length = 2 ∧
    ((explodeDirectors rawC7.rows).filter (fun p => p.1 = "Y")).length = 1 ∧
    ((explodeDirectors rawC7.rows).filter (fun p => p.1 = "Z")).length = 1 ∧
    get_top_directors rawC7 10 1 = [] :=
  ⟨by decide, by decide, by decide, by decide, by decide⟩

/-- A batch where only director `X` has revenue data, so exactly one
group passes the minimum-size filter (the witness then needs no order
reasoning). -/
def rawC7w : Frame :=
  { cols := [.director, .revenue_musd],
    rows := [
      [(Col.director, some (.vstr "X|Y"))],
      [(Col.director, some (.vstr "X")), (Col.revenue_musd, some (.num 20))]] }

instance : Inhabited DirectorStats :=
  ⟨⟨"", 0, 0, none, none, 0⟩⟩

/-- The head of a non-empty list is a member. -/
theorem headD_mem {α : Type} [Inhabited α] (l : List α) (h : 0 < l.length) :
    l.headD default ∈ l := by
  cases l with
  | nil => simp at h
  | cons a as => exact List.mem_cons_self a as

/-- C7 witness: the amended theorem applied to a concrete batch whose
revenues are present; there `movie_count` is the exploded-row count. -/
theorem C7_director_counts_witness :
    0 < (get_top_directors rawC7w 10 1).length ∧
    ((get_top_directors rawC7w 10 1).headD default).movie_count
      = ((explodeDirectors rawC7w.rows).filter
          (fun p => p.1 = ((get_top_directors rawC7w 10 1).headD default).director
            ∧ (p.2.get .revenue_musd).isSome)).length :=
  ⟨by decide,
    (C7_director_counts rawC7w 10 1 _
      (headD_mem _ (by decide))).1⟩

/-! ### Claim C6 — franchise ROI from summed aggregates -/

/-- Filtering the franchise rows again by one collection value is the
same as filtering the whole batch by that value. -/
theorem filter_franchise_by_value (rows : List Row) (v : Value) :
    (rows.filter (fun r => (r.get .belongs_to_collection).isSome)).filter
        (fun r => r.get .belongs_to_collection = some v)
      = rows.filter (fun r => r.get .belongs_to_collection = some v) := by
  rw [List.filter_filter]
  apply List.filter_congr
  intro r _
  by_cases he : r.get .belongs_to_collection = some v
  · simp [he]
  · simp [he]

/-- C6 (amended): whenever `get_top_franchises` returns a result (the
aggregation does not fail on an absent column), every group of that
result derives its `franchise_roi` from the summed aggregates — the
rounded sum of member profits divided by the rounded sum of member
budgets, rounded again to two decimals — not from the mean of per-row
ratios.  (The division is stated for a non-zero rounded budget sum; at
zero the source would produce an IEEE infinity.) -/
theorem C6_franchise_roi (df : Frame) (n : ℕ) (g : FranchiseStats)
    (res : List FranchiseStats)
    (hres : get_top_franchises df n = some res) (hg : g ∈ res)
    (hb : round2 (aggSum (df.rows.filter
        (fun r => r.get .belongs_to_collection = some g.franchise))
        .budget_musd) ≠ 0) :
    g.franchise_roi = some (round2
      (round2 (aggSum (df.rows.filter
          (fun r => r.get .belongs_to_collection = some g.franchise)) .profit_musd)
        / round2 (aggSum (df.rows.filter
          (fun r => r.get .belongs_to_collection = some g.franchise))
          .budget_musd))) := by
  unfold get_top_franchises at hres
  split at hres
  · rw [Option.some_inj] at hres
    subst hres
    exact absurd hg (List.not_mem_nil g)
  · split at hres
    · rw [Option.some_inj] at hres
      subst hres
      exact absurd hg (List.not_mem_nil g)
    · split at hres
      case isFalse => exact Option.noConfusion hres
      rw [Option.some_inj] at hres
      subst hres
      have hg1 := mem_sortDesc _ _ _ (List.mem_of_mem_take hg)
      obtain ⟨v, _, hmk⟩ := List.mem_map.mp hg1
      subst hmk
      have hfr : (mkFranchiseStats v ((df.rows.filter
          (fun r => (r.get .belongs_to_collection).isSome)).filter
          (fun r => r.get .belongs_to_collection = some v))).franchise = v := rfl
      simp only [hfr] at hb ⊢
      have hroi : (mkFranchiseStats v ((df.rows.filter
          (fun r => (r.get .belongs_to_collection).isSome)).filter
          (fun r => r.get .belongs_to_collection = some v))).franchise_roi
          = (if round2 (aggSum ((df.rows.filter
              (fun r => (r.get .belongs_to_collection).isSome)).filter
              (fun r => r.get .belongs_to_collection = some v)) .budget_musd) = 0
            then none
            else some (round2 (round2 (aggSum ((df.rows.filter
                (fun r => (r.get .belongs_to_collection).isSome)).filter
                (fun r => r.get .belongs_to_collection = some v)) .profit_musd)
              / round2 (aggSum ((df.rows.filter
                (fun r => (r.get .belongs_to_collection).isSome)).filter
                (fun r => r.get .belongs_to_collection = some v)) .budget_musd)))) :=
        rfl
      rw [hroi, filter_franchise_by_value df.rows v, if_neg hb]

/-- One franchise `F` with a single movie: budget 3 M USD, revenue
4 M USD, profit 1 M USD, rating 7; all columns named in the source's
aggregation dictionary are present, so the aggregation succeeds. -/
def frameC6 : Frame :=
  { cols := [.id, .belongs_to_collection, .budget_musd, .revenue_musd,
             .vote_average, .profit_musd],
    rows := [[(Col.id, some (.num 1)),
              (Col.belongs_to_collection, some (.vstr "F")),
              (Col.budget_musd, some (.num 3)),
              (Col.revenue_musd, some (.num 4)),
              (Col.vote_average, some (.num 7)),
              (Col.profit_musd, some (.num 1))]] }

instance : Inhabited FranchiseStats :=
  ⟨⟨Value.vstr "", 0, 0, none, 0, none, none, 0, none⟩⟩

/-- C6 counterexample: the claim says the group ratio equals the sum of
member profits divided by the sum of member budgets; for the group `F`
those sums are 1 and 3, so the claim requires `1/3`, but the code rounds
to two decimals and produces `0.33`. -/
theorem C6_counterexample :
    aggSum frameC6.rows .profit_musd = 1 ∧
    aggSum frameC6.rows .budget_musd = 3 ∧
    0 < ((get_top_franchises frameC6 10).getD []).length ∧
    (((get_top_franchises frameC6 10).getD []).headD default).franchise_roi
      = some (33 / 100 : ℚ) ∧
    (33 / 100 : ℚ) ≠ 1 / 3 := by
  refine ⟨?_, ?_, by decide, ?_, by norm_num⟩
  · simp [aggSum, numericValues, frameC6, Row.get, toQ]
  · simp [aggSum, numericValues, frameC6, Row.get, toQ]
  · simp [get_top_franchises, frameC6, mkFranchiseStats, keysOf, aggSum,
      aggMean, aggCount, numericValues, toQ, round2, roundHalfEven, sortDesc,
      insertDesc, Row.get]
    norm_num [Int.fract]

/-- C6 witness: the amended theorem applied to the concrete franchise,
whose aggregation succeeds and whose rounded budget sum is non-zero. -/
theorem C6_franchise_roi_witness :
    0 < ((get_top_franchises frameC6 10).getD []).length ∧
    (((get_top_franchises frameC6 10).getD []).headD default).franchise_roi
      = some (round2 (round2 (aggSum (frameC6.rows.filter
          (fun r => r.get .belongs_to_collection
            = some (((get_top_franchises frameC6 10).getD
                []).headD default).franchise))
          .profit_musd)
        / round2 (aggSum (frameC6.rows.filter
          (fun r => r.get .belongs_to_collection
            = some (((get_top_franchises frameC6 10).getD
                []).headD default).franchise))
          .budget_musd))) :=
  ⟨by decide,
    C6_franchise_roi frameC6 10 _ ((get_top_franchises frameC6 10).getD [])
      rfl (headD_mem _ (by decide))
      (by
        simp [get_top_franchises, frameC6, mkFranchiseStats, keysOf, aggSum,
          aggMean, aggCount, numericValues, toQ, round2, roundHalfEven,
          sortDesc, insertDesc, Row.get]
        norm_num [Int.fract])⟩

/-! ### Claim C10 — dedup runs before the released-status filter -/

theorem length_cleanStep1 (df : Frame) :
    (cleanStep1 df).rows.length = df.rows.length := rfl

theorem length_cleanStep2 (df : Frame) :
    (cleanStep2 df).rows.length = df.rows.length := by
  unfold cleanStep2
  rw [length_applyToColumn, length_applyToColumn, length_applyToColumn,
    length_applyToColumn, length_applyToColumn]

theorem length_cleanStep3 (df : Frame) :
    (cleanStep3 df).rows.length = df.rows.length := by
  unfold cleanStep3
  rw [length_applyToColumn, length_applyToColumn, length_applyToColumn,
    length_applyToColumn, length_applyToColumn, length_applyToColumn,
    length_applyToColumn, length_applyToColumn]

theorem length_cleanStep4 (df : Frame) :
    (cleanStep4 df).rows.length = df.rows.length := by
  unfold cleanStep4 addMusd
  rw [length_applyToColumn, length_applyToColumn, length_ite_assign,
    length_ite_assign, length_applyToColumn, length_applyToColumn,
    length_applyToColumn]

/-- Cells outside the seven columns step 4 touches are unchanged. -/
theorem getAt_cleanStep4_ne (df : Frame) (i : ℕ) {c : Col}
    (h1 : c ≠ .budget) (h2 : c ≠ .revenue) (h3 : c ≠ .runtime)
    (h4 : c ≠ .budget_musd) (h5 : c ≠ .revenue_musd)
    (h6 : c ≠ .overview) (h7 : c ≠ .tagline) :
    getAt (cleanStep4 df) i c = getAt df i c := by
  unfold cleanStep4 addMusd
  rw [getAt_applyToColumn_ne _ _ i h7, getAt_applyToColumn_ne _ _ i h6,
    getAt_ite_assign_ne _ _ _ i h5, getAt_ite_assign_ne _ _ _ i h4,
    getAt_applyToColumn_ne _ _ i h3, getAt_applyToColumn_ne _ _ i h2,
    getAt_applyToColumn_ne _ _ i h1]

/-- The id cell after step 3 is its numeric coercion (when the id column
is present and the row exists). -/
theorem getAt_cleanStep3_id (df : Frame) (i : ℕ) (hid : Col.id ∈ df.cols)
    (hi : i < df.rows.length) :
    getAt (cleanStep3 df) i .id = toNumericCell (getAt df i .id) := by
  unfold cleanStep3
  rw [getAt_applyToColumn_ne _ _ i (by decide),
    getAt_applyToColumn_ne _ _ i (by decide),
    getAt_applyToColumn_ne _ _ i (by decide),
    getAt_applyToColumn_ne _ _ i (by decide),
    getAt_applyToColumn_ne _ _ i (by decide),
    getAt_applyToColumn_ne _ _ i (by decide),
    getAt_applyToColumn_self _ toNumericCell i
      (by rw [cols_applyToColumn]; exact hid)
      (by rw [length_applyToColumn]; exact hi),
    getAt_applyToColumn_ne _ _ i (by decide)]

/-- The id cell after steps 1–4 is the numeric coercion of the raw id
cell. -/
theorem getAt_step1234_id (df : Frame) (i : ℕ) (hid : Col.id ∈ df.cols)
    (hi : i < df.rows.length) :
    getAt (cleanStep4 (cleanStep3 (cleanStep2 (cleanStep1 df)))) i .id
      = toNumericCell (getAt df i .id) := by
  rw [getAt_cleanStep4_ne _ i (by decide) (by decide) (by decide) (by decide)
      (by decide) (by decide) (by decide),
    getAt_cleanStep3_id _ i ?_ ?_,
    getAt_cleanStep2_ne _ i (by decide) (by decide) (by decide) (by decide)
      (by decide),
    getAt_cleanStep1]
  · rw [cols_cleanStep2]
    exact (mem_cols_cleanStep1 df (by decide)).mpr hid
  · rw [length_cleanStep2, length_cleanStep1]
    exact hi

/-- The status cell is untouched by steps 1–4. -/
theorem getAt_step1234_status (df : Frame) (i : ℕ) :
    getAt (cleanStep4 (cleanStep3 (cleanStep2 (cleanStep1 df)))) i .status
      = getAt df i .status := by
  rw [getAt_cleanStep4_ne _ i (by decide) (by decide) (by decide) (by decide)
      (by decide) (by decide) (by decide),
    getAt_cleanStep3_ne _ i (by decide) (by decide) (by decide) (by decide)
      (by decide) (by decide) (by decide) (by decide),
    getAt_cleanStep2_ne _ i (by decide) (by decide) (by decide) (by decide)
      (by decide),
    getAt_cleanStep1]

/-- Ids of deduplicated rows are not among the already-seen ids. -/
theorem dedup_id_not_seen (rows : List Row) (seen : List Cell) (r : Row)
    (h : r ∈ dedupById rows seen) : ¬ r.get .id ∈ seen := by
  induction rows generalizing seen with
  | nil =>
      rw [dedupById] at h
      exact absurd h (List.not_mem_nil r)
  | cons a as ih =>
      by_cases hm : a.get .id ∈ seen
      · rw [dedupById, if_pos hm] at h
        exact ih seen h
      · rw [dedupById, if_neg hm] at h
        rcases List.mem_cons.mp h with h | h
        · exact h ▸ hm
        · intro hs
          exact ih _ h (List.mem_cons_of_mem _ hs)

/-- A deduplicated row carrying id value `v` is the first input row with
that id (split formulation: the input is `pre ++ rf :: post`, no row of
`pre` has id `v`, and `rf` does). -/
theorem dedup_keeps_first (pre : List Row) (rf : Row) (post : List Row)
    (seen : List Cell) (v : Cell)
    (hpre : ∀ x ∈ pre, x.get .id ≠ v) (hrf : rf.get .id = v) (hv : ¬ v ∈ seen)
    (r : Row) (hr : r ∈ dedupById (pre ++ rf :: post) seen)
    (hid : r.get .id = v) : r = rf := by
  induction pre generalizing seen with
  | nil =>
      rw [List.nil_append] at hr
      rw [dedupById, hrf, if_neg hv] at hr
      rcases List.mem_cons.mp hr with h | h
      · exact h
      · exact absurd (hid ▸ List.mem_cons_self v seen)
          (dedup_id_not_seen _ _ _ h)
  | cons a pre' ih =>
      have ha : a.get .id ≠ v := hpre a (List.mem_cons_self a pre')
      rw [List.cons_append] at hr
      by_cases hm : a.get .id ∈ seen
      · rw [dedupById, if_pos hm] at hr
        exact ih seen (fun x hx => hpre x (List.mem_cons_of_mem a hx)) hv hr
      · rw [dedupById, if_neg hm] at hr
        rcases List.mem_cons.mp hr with h | h
        · exact absurd (h ▸ hid) ha
        · refine ih _ (fun x hx => hpre x (List.mem_cons_of_mem a hx)) ?_ h
          intro hs
          rcases List.mem_cons.mp hs with hs | hs
          · exact ha hs.symm
          · exact hv hs

/-- Step 4 adds no column other than the two scaled monetary ones. -/
theorem mem_cols_cleanStep4_ne (df : Frame) {c : Col} (h1 : c ≠ .budget_musd)
    (h2 : c ≠ .revenue_musd) : c ∈ (cleanStep4 df).cols ↔ c ∈ df.cols := by
  unfold cleanStep4 addMusd
  rw [cols_applyToColumn, cols_applyToColumn, mem_cols_ite_assign_ne _ _ _ h2,
    mem_cols_ite_assign_ne _ _ _ h1, cols_applyToColumn, cols_applyToColumn,
    cols_applyToColumn]

theorem cols_cleanStep5b (d : Frame) : (cleanStep5b d).cols = d.cols := by
  unfold cleanStep5b
  split <;> rfl

theorem cols_cleanStep5c (d : Frame) : (cleanStep5c d).cols = d.cols := rfl

/-- In range, `rowAt` is the list element. -/
theorem rowAt_eq_getElem (df : Frame) (i : ℕ) (hi : i < df.rows.length) :
    rowAt df i = df.rows[i] := by
  unfold rowAt
  rw [List.getElem?_eq_getElem hi]
  rfl

/-- The steps after step 4 keep no row whose id value first occurs, in
the step-4 output, on a row that is not "Released". -/
theorem steps567_drop_unreleased_first (d4 : Frame) (q : ℚ) (i : ℕ)
    (hid4 : Col.id ∈ d4.cols) (hst4 : Col.status ∈ d4.cols)
    (hi4 : i < d4.rows.length)
    (hd4i : getAt d4 i .id = some (.num q))
    (hd4first : ∀ k, k < i → getAt d4 k .id ≠ some (.num q))
    (hd4sti : getAt d4 i .status ≠ some (.vstr "Released")) :
    ∀ r ∈ (cleanStep7 (cleanStep6 (cleanStep5c (cleanStep5b
      (cleanStep5a d4))))).rows, r.get .id ≠ some (.num q) := by
  intro r hr hrid
  rw [rows_cleanStep7] at hr
  have hst6 : Col.status ∈ (cleanStep5c (cleanStep5b (cleanStep5a d4))).cols := by
    rw [cols_cleanStep5c, cols_cleanStep5b, cols_cleanStep5a]
    exact hst4
  have hfilter : r ∈ (cleanStep5c (cleanStep5b (cleanStep5a d4))).rows.filter
      (fun x => x.get .status = some (.vstr "Released")) := by
    unfold cleanStep6 at hr
    rw [if_pos hst6] at hr
    exact hr
  have hrmem := List.mem_of_mem_filter hfilter
  have hrstatus : r.get .status = some (.vstr "Released") := by
    have := (List.mem_filter.mp hfilter).2
    simpa using this
  have hr5a : r ∈ (cleanStep5a d4).rows :=
    mem_rows_cleanStep5b _ _ (mem_rows_cleanStep5c _ _ hrmem)
  have hrdedup : r ∈ dedupById d4.rows [] := by
    unfold cleanStep5a at hr5a
    rw [if_pos hid4] at hr5a
    exact hr5a
  have hsplit : d4.rows = d4.rows.take i ++ rowAt d4 i :: d4.rows.drop (i + 1) := by
    rw [rowAt_eq_getElem d4 i hi4, ← List.drop_eq_getElem_cons hi4,
      List.take_append_drop]
  have hpre : ∀ x ∈ d4.rows.take i, x.get .id ≠ some (.num q) := by
    intro x hx
    obtain ⟨l, hl, hxl⟩ := List.mem_iff_getElem.mp hx
    have hli : l < i := by
      have := hl
      rw [List.length_take] at this
      omega
    have hxr : x = rowAt d4 l := by
      rw [← hxl, rowAt_eq_getElem d4 l (by omega), List.getElem_take]
    rw [hxr]
    exact hd4first l hli
  have hrfid : (rowAt d4 i).get .id = some (.num q) := hd4i
  have hreq : r = rowAt d4 i :=
    dedup_keeps_first _ _ _ [] _ hpre hrfid (List.not_mem_nil _) r
      (hsplit ▸ hrdedup) hrid
  rw [hreq] at hrstatus
  exact hd4sti hrstatus

/-- C10: duplicate removal (keep first) runs before the released-status
filter, so when the first occurrence of an identity is not "Released" and
a later duplicate is "Released", the cleaned output contains no row with
that identity at all — the released duplicate is discarded together with
its unreleased first occurrence. -/
theorem C10_dedup_before_status_filter (df : Frame) (q : ℚ) (i j : ℕ)
    (hid : Col.id ∈ df.cols) (hst : Col.status ∈ df.cols)
    (hij : i < j) (hj : j < df.rows.length)
    (hidi : toNumericCell (getAt df i .id) = some (.num q))
    (hidj : toNumericCell (getAt df j .id) = some (.num q))
    (hfirst : ∀ k < i, toNumericCell (getAt df k .id) ≠ some (.num q))
    (hsti : getAt df i .status ≠ some (.vstr "Released"))
    (hstj : getAt df j .status = some (.vstr "Released")) :
    ∀ r ∈ (clean_movies df).rows, r.get .id ≠ some (.num q) := by
  have hi : i < df.rows.length := lt_trans hij hj
  have hlen4 : (cleanStep4 (cleanStep3 (cleanStep2 (cleanStep1 df)))).rows.length
      = df.rows.length := by
    rw [length_cleanStep4, length_cleanStep3, length_cleanStep2,
      length_cleanStep1]
  refine steps567_drop_unreleased_first
    (cleanStep4 (cleanStep3 (cleanStep2 (cleanStep1 df)))) q i ?_ ?_ ?_ ?_ ?_ ?_
  · refine (mem_cols_cleanStep4_ne _ (by decide) (by decide)).mpr ?_
    rw [cols_cleanStep3, cols_cleanStep2]
    exact (mem_cols_cleanStep1 df (by decide)).mpr hid
  · refine (mem_cols_cleanStep4_ne _ (by decide) (by decide)).mpr ?_
    rw [cols_cleanStep3, cols_cleanStep2]
    exact (mem_cols_cleanStep1 df (by decide)).mpr hst
  · omega
  · rw [getAt_step1234_id df i hid hi]
    exact hidi
  · intro k hk
    rw [getAt_step1234_id df k hid (lt_trans hk hi)]
    exact hfirst k hk
  · rw [getAt_step1234_status]
    exact hsti

/-- Two raw records with the same identity: the first is only "Planned",
the second is "Released". -/
def rawC10 : Frame :=
  { cols := [.id, .title, .status],
    rows := [
      [(Col.id, some (.num 7)), (Col.title, some (.vstr "A")),
       (Col.status, some (.vstr "Planned"))],
      [(Col.id, some (.num 7)), (Col.title, some (.vstr "A, released")),
       (Col.status, some (.vstr "Released"))]] }

/-- C10 witness: the theorem applied to the concrete duplicate pair;
neither row with id 7 survives cleaning. -/
theorem C10_dedup_before_status_filter_witness :
    Col.id ∈ rawC10.cols ∧ Col.status ∈ rawC10.cols ∧
    toNumericCell (getAt rawC10 0 .id) = some (.num 7) ∧
    toNumericCell (getAt rawC10 1 .id) = some (.num 7) ∧
    getAt rawC10 0 .status ≠ some (.vstr "Released") ∧
    getAt rawC10 1 .status = some (.vstr "Released") ∧
    (∀ r ∈ (clean_movies rawC10).rows, r.get .id ≠ some (.num 7)) :=
  ⟨by decide, by decide, by decide, by decide, by decide, by decide,
    C10_dedup_before_status_filter rawC10 7 0 1 (by decide) (by decide)
      (by decide) (by decide) (by decide) (by decide)
      (by intro k hk; omega) (by decide) (by decide)⟩

/-! ### Claim C8 — when cleaning is idempotent -/

theorem map_id_of_mem {α : Type} (l : List α) (g : α → α)
    (h : ∀ a ∈ l, g a = a) : l.map g = l := by
  induction l with
  | nil => rfl
  | cons a as ih =>
      rw [List.map_cons, h a (List.mem_cons_self a as),
        ih (fun x hx => h x (List.mem_cons_of_mem a hx))]

/-- Writing back the value a bound column already holds is a no-op. -/
theorem Row.set_of_get (r : Row) (c : Col) (v : Cell) (hv : r.get c = v)
    (hb : ∃ p ∈ r, p.1 = c) : r.set c v = r := by
  induction r with
  | nil =>
      obtain ⟨p, hp, _⟩ := hb
      exact absurd hp (List.not_mem_nil p)
  | cons p ps ih =>
      by_cases hp : p.1 = c
      · rw [Row.set]
        rw [if_pos hp]
        have hpv : p.2 = v := by
          rw [Row.get, if_pos hp] at hv
          exact hv
        have : p = (c, v) := by
          cases p
          simp only at hp hpv
          rw [hp, hpv]
        rw [← this]
      · rw [Row.set]
        rw [if_neg hp]
        have hv' : Row.get ps c = v := by
          rw [Row.get, if_neg hp] at hv
          exact hv
        obtain ⟨x, hx, hxc⟩ := hb
        rcases List.mem_cons.mp hx with hx | hx
        · exact absurd (hx ▸ hxc) hp
        · rw [ih hv' ⟨x, hx, hxc⟩]

/-- A per-cell transform that fixes every cell of the column leaves the
frame unchanged (rows bind every present column, as pandas frames do). -/
theorem applyToColumn_eq_self (df : Frame) (c : Col) (f : Cell → Cell)
    (hf : c ∈ df.cols → ∀ i, i < df.rows.length →
      f (getAt df i c) = getAt df i c)
    (hb : ∀ r ∈ df.rows, c ∈ df.cols → ∃ p ∈ r, p.1 = c) :
    applyToColumn df c f = df := by
  unfold applyToColumn
  by_cases hc : c ∈ df.cols
  · rw [if_pos hc]
    have hrows : df.rows.map (fun r => r.set c (f (r.get c))) = df.rows := by
      apply map_id_of_mem
      intro r hr
      obtain ⟨i, hi, hir⟩ := List.mem_iff_getElem.mp hr
      have hgi : getAt df i c = r.get c := by
        rw [← hir, ← rowAt_eq_getElem df i hi]
        rfl
      have hfr : f (r.get c) = r.get c := by
        rw [← hgi]
        exact hf hc i hi
      rw [hfr]
      exact Row.set_of_get r c _ rfl (hb r hr hc)
    rw [hrows]
  · rw [if_neg hc]

/-- An assignment that writes back each row's current value of a present
column leaves the frame unchanged. -/
theorem assignColumn_eq_self (df : Frame) (c : Col) (f : Row → Cell)
    (hc : c ∈ df.cols)
    (hf : ∀ i, i < df.rows.length → f (rowAt df i) = getAt df i c)
    (hb : ∀ r ∈ df.rows, ∃ p ∈ r, p.1 = c) :
    assignColumn df c f = df := by
  unfold assignColumn
  rw [if_pos hc]
  have hrows : df.rows.map (fun r => r.set c (f r)) = df.rows := by
    apply map_id_of_mem
    intro r hr
    obtain ⟨i, hi, hir⟩ := List.mem_iff_getElem.mp hr
    have hra : rowAt df i = r := by rw [rowAt_eq_getElem df i hi, hir]
    have hfr : f r = r.get c := by
      rw [← hra, hf i hi]
      rfl
    rw [hfr]
    exact Row.set_of_get r c _ rfl (hb r hr)
  rw [hrows]

/-- Dedup is the identity when the ids are pairwise distinct and none was
seen before. -/
theorem dedup_eq_self (rows : List Row) (seen : List Cell)
    (h1 : ∀ r ∈ rows, ¬ r.get .id ∈ seen)
    (h2 : rows.Pairwise (fun a b => a.get .id ≠ b.get .id)) :
    dedupById rows seen = rows := by
  induction rows generalizing seen with
  | nil => rfl
  | cons a as ih =>
      rw [dedupById, if_neg (h1 a (List.mem_cons_self a as))]
      congr 1
      apply ih
      · intro r hr hm
        rcases List.mem_cons.mp hm with hm | hm
        · exact (List.pairwise_cons.mp h2).1 r hr hm.symm
        · exact h1 r (List.mem_cons_of_mem a hr) hm
      · exact (List.pairwise_cons.mp h2).2

/-- C8 (amended): `clean_movies` is idempotent only on batches whose
parsed string columns are entirely missing.  Stated precisely: a batch in
cleaned shape — the dropped columns absent, the parsed columns (if
present) all missing, the coerced columns fixed by their coercions, no
stored zeros, the scaled monetary columns consistent, no placeholder
text, pairwise-distinct ids, ids and titles present, at least 10
non-missing cells per row, no status column, and the canonical column
order — is returned unchanged by a second cleaning.  (On real cleaned
output the parsed columns hold plain strings such as `Action|Adventure`;
re-parsing wipes them, so cleaning is NOT idempotent there — see the
counterexample.) -/
theorem C8_clean_idempotent_when_parsed_missing (df : Frame)
    (hbind : ∀ r ∈ df.rows, ∀ c, c ∈ df.cols → ∃ p ∈ r, p.1 = c)
    (hdrop : ∀ c ∈ COLUMNS_TO_DROP, ¬ c ∈ df.cols)
    (hparsed : ∀ c, (c = Col.belongs_to_collection ∨ c = Col.genres ∨
        c = Col.spoken_languages ∨ c = Col.production_countries ∨
        c = Col.production_companies) → c ∈ df.cols →
        ∀ i, i < df.rows.length → getAt df i c = none)
    (hnum : ∀ c, (c = Col.budget ∨ c = Col.id ∨ c = Col.popularity ∨
        c = Col.revenue ∨ c = Col.runtime ∨ c = Col.vote_count ∨
        c = Col.vote_average) → c ∈ df.cols →
        ∀ i, i < df.rows.length → toNumericCell (getAt df i c) = getAt df i c)
    (hdate : Col.release_date ∈ df.cols → ∀ i, i < df.rows.length →
        toDatetimeCell (getAt df i .release_date) = getAt df i .release_date)
    (hzero : ∀ c, (c = Col.budget ∨ c = Col.revenue ∨ c = Col.runtime) →
        c ∈ df.cols → ∀ i, i < df.rows.length →
        zeroToNan (getAt df i c) = getAt df i c)
    (hbm : Col.budget ∈ df.cols → Col.budget_musd ∈ df.cols ∧
        ∀ i, i < df.rows.length →
          getAt df i .budget_musd = divMillion (getAt df i .budget))
    (hrm : Col.revenue ∈ df.cols → Col.revenue_musd ∈ df.cols ∧
        ∀ i, i < df.rows.length →
          getAt df i .revenue_musd = divMillion (getAt df i .revenue))
    (hph : ∀ c, (c = Col.overview ∨ c = Col.tagline) → c ∈ df.cols →
        ∀ i, i < df.rows.length →
        placeholderToNan (getAt df i c) = getAt df i c)
    (hdist : Col.id ∈ df.cols →
        df.rows.Pairwise (fun a b => a.get .id ≠ b.get .id))
    (hidt : Col.id ∈ df.cols → Col.title ∈ df.cols →
        ∀ i, i < df.rows.length →
        (getAt df i .id).isSome ∧ (getAt df i .title).isSome)
    (hthresh : ∀ i, i < df.rows.length → 10 ≤ nonNullCount df.cols (rowAt df i))
    (hstatus : ¬ Col.status ∈ df.cols)
    (horder : df.cols = FINAL_COLUMN_ORDER.filter (fun c => c ∈ df.cols)
        ++ df.cols.filter (fun c => ¬ c ∈ FINAL_COLUMN_ORDER)) :
    clean_movies df = df := by
  have e1 : cleanStep1 df = df := by
    unfold cleanStep1 dropColumns
    have hcols : df.cols.filter (fun c => ¬ c ∈ COLUMNS_TO_DROP) = df.cols := by
      rw [List.filter_eq_self]
      intro a ha
      simp only [decide_eq_true_eq]
      exact fun hc => hdrop a hc ha
    rw [hcols]
  have e2 : cleanStep2 df = df := by
    unfold cleanStep2
    rw [applyToColumn_eq_self df .belongs_to_collection extract_collection_name
        (fun hc i hi => by rw [hparsed _ (by left; rfl) hc i hi]; rfl)
        (fun r hr hc => hbind r hr _ hc),
      applyToColumn_eq_self df .genres
        (fun v => extract_names_from_list v "name" "|")
        (fun hc i hi => by
          rw [hparsed _ (by right; left; rfl) hc i hi]; rfl)
        (fun r hr hc => hbind r hr _ hc),
      applyToColumn_eq_self df .spoken_languages
        (fun v => extract_language_codes v "|")
        (fun hc i hi => by
          rw [hparsed _ (by right; right; left; rfl) hc i hi]; rfl)
        (fun r hr hc => hbind r hr _ hc),
      applyToColumn_eq_self df .production_countries
        (fun v => extract_names_from_list v "name" "|")
        (fun hc i hi => by
          rw [hparsed _ (by right; right; right; left; rfl) hc i hi]; rfl)
        (fun r hr hc => hbind r hr _ hc),
      applyToColumn_eq_self df .production_companies
        (fun v => extract_names_from_list v "name" "|")
        (fun hc i hi => by
          rw [hparsed _ (by right; right; right; right; rfl) hc i hi]; rfl)
        (fun r hr hc => hbind r hr _ hc)]
  have e3 : cleanStep3 df = df := by
    unfold cleanStep3
    rw [applyToColumn_eq_self df .budget _
        (fun hc i hi => hnum _ (by decide) hc i hi)
        (fun r hr hc => hbind r hr _ hc),
      applyToColumn_eq_self df .id _
        (fun hc i hi => hnum _ (by decide) hc i hi)
        (fun r hr hc => hbind r hr _ hc),
      applyToColumn_eq_self df .popularity _
        (fun hc i hi => hnum _ (by decide) hc i hi)
        (fun r hr hc => hbind r hr _ hc),
      applyToColumn_eq_self df .revenue _
        (fun hc i hi => hnum _ (by decide) hc i hi)
        (fun r hr hc => hbind r hr _ hc),
      applyToColumn_eq_self df .runtime _
        (fun hc i hi => hnum _ (by decide) hc i hi)
        (fun r hr hc => hbind r hr _ hc),
      applyToColumn_eq_self df .vote_count _
        (fun hc i hi => hnum _ (by decide) hc i hi)
        (fun r hr hc => hbind r hr _ hc),
      applyToColumn_eq_self df .vote_average _
        (fun hc i hi => hnum _ (by decide) hc i hi)
        (fun r hr hc => hbind r hr _ hc),
      applyToColumn_eq_self df .release_date _
        (fun hc i hi => hdate hc i hi)
        (fun r hr hc => hbind r hr _ hc)]
  have e4 : cleanStep4 df = df := by
    unfold cleanStep4 addMusd
    rw [applyToColumn_eq_self df .budget _
        (fun hc i hi => hzero _ (by decide) hc i hi)
        (fun r hr hc => hbind r hr _ hc),
      applyToColumn_eq_self df .revenue _
        (fun hc i hi => hzero _ (by decide) hc i hi)
        (fun r hr hc => hbind r hr _ hc),
      applyToColumn_eq_self df .runtime _
        (fun hc i hi => hzero _ (by decide) hc i hi)
        (fun r hr hc => hbind r hr _ hc)]
    have e4b : (if Col.budget ∈ df.cols then
        assignColumn df .budget_musd (fun r => divMillion (r.get .budget))
      else df) = df := by
      by_cases hbud : Col.budget ∈ df.cols
      · rw [if_pos hbud]
        exact assignColumn_eq_self df .budget_musd _ (hbm hbud).1
          (fun i hi => ((hbm hbud).2 i hi).symm)
          (fun r hr => hbind r hr _ (hbm hbud).1)
      · rw [if_neg hbud]
    rw [e4b]
    have e4r : (if Col.revenue ∈ df.cols then
        assignColumn df .revenue_musd (fun r => divMillion (r.get .revenue))
      else df) = df := by
      by_cases hrev : Col.revenue ∈ df.cols
      · rw [if_pos hrev]
        exact assignColumn_eq_self df .revenue_musd _ (hrm hrev).1
          (fun i hi => ((hrm hrev).2 i hi).symm)
          (fun r hr => hbind r hr _ (hrm hrev).1)
      · rw [if_neg hrev]
    rw [e4r]
    rw [applyToColumn_eq_self df .overview _
        (fun hc i hi => hph _ (by decide) hc i hi)
        (fun r hr hc => hbind r hr _ hc),
      applyToColumn_eq_self df .tagline _
        (fun hc i hi => hph _ (by decide) hc i hi)
        (fun r hr hc => hbind r hr _ hc)]
  have e5a : cleanStep5a df = df := by
    unfold cleanStep5a
    by_cases hid : Col.id ∈ df.cols
    · rw [if_pos hid,
        dedup_eq_self df.rows [] (fun r _ hm => absurd hm (List.not_mem_nil _))
          (hdist hid)]
    · rw [if_neg hid]
  have e5b : cleanStep5b df = df := by
    unfold cleanStep5b
    by_cases hg : Col.id ∈ df.cols ∧ Col.title ∈ df.cols
    · rw [if_pos hg]
      have hrows : df.rows.filter
          (fun r => (r.get .id).isSome ∧ (r.get .title).isSome) = df.rows := by
        rw [List.filter_eq_self]
        intro r hr
        obtain ⟨i, hi, hir⟩ := List.mem_iff_getElem.mp hr
        have hrg : rowAt df i = r := by rw [rowAt_eq_getElem df i hi, hir]
        have hthis := hidt hg.1 hg.2 i hi
        have h1 : (r.get .id).isSome = true := by
          rw [← hrg]
          exact hthis.1
        have h2 : (r.get .title).isSome = true := by
          rw [← hrg]
          exact hthis.2
        exact decide_eq_true ⟨h1, h2⟩
      rw [hrows]
    · rw [if_neg hg]
  have e5c : cleanStep5c df = df := by
    unfold cleanStep5c
    have hrows : df.rows.filter (fun r => 10 ≤ nonNullCount df.cols r)
        = df.rows := by
      rw [List.filter_eq_self]
      intro r hr
      obtain ⟨i, hi, hir⟩ := List.mem_iff_getElem.mp hr
      have hrg : rowAt df i = r := by rw [rowAt_eq_getElem df i hi, hir]
      have := hthresh i hi
      rw [hrg] at this
      simpa using this
    rw [hrows]
  have e6 : cleanStep6 df = df := by
    unfold cleanStep6
    rw [if_neg hstatus]
  have e7 : cleanStep7 df = df := by
    unfold cleanStep7
    rw [← horder]
  unfold clean_movies
  rw [e1, e2, e3, e4, e5a, e5b, e5c, e6, e7]

/-- A raw batch whose nested columns hold serialized structures (the
shape the extraction layer produces after a round-trip through text). -/
def rawC8 : Frame :=
  { cols := [.id, .title, .budget, .revenue, .runtime, .popularity, .vote_count,
             .vote_average, .overview, .tagline, .status, .genres,
             .belongs_to_collection],
    rows := [
      [(Col.id, some (.num 1)), (Col.title, some (.vstr "A")),
       (Col.budget, some (.num 50)), (Col.revenue, some (.num 100)),
       (Col.runtime, some (.num 100)), (Col.popularity, some (.num 5)),
       (Col.vote_count, some (.num 10)), (Col.vote_average, some (.num 7)),
       (Col.overview, some (.vstr "o")), (Col.tagline, some (.vstr "t")),
       (Col.status, some (.vstr "Released")),
       (Col.genres, some (.vstr
         "[\x7b\"id\": 28, \"name\": \"Action\"\x7d, \x7b\"id\": 12, \"name\": \"Adventure\"\x7d]")),
       (Col.belongs_to_collection, some (.vstr
         "\x7b\"id\": 5, \"name\": \"Slug Collection\"\x7d"))]] }

/-- C8 counterexample: cleaning once parses the genres into the plain
string `Action|Adventure`; cleaning a second time feeds that string back
into the literal parser, which fails, so the value is wiped to missing —
the second application does not yield the same dataset. -/
theorem C8_counterexample :
    Col.genres ∈ (clean_movies rawC8).cols ∧
    getAt (clean_movies rawC8) 0 .genres = some (.vstr "Action|Adventure") ∧
    getAt (clean_movies rawC8) 0 .belongs_to_collection
      = some (.vstr "Slug Collection") ∧
    getAt (clean_movies (clean_movies rawC8)) 0 .genres = none ∧
    getAt (clean_movies (clean_movies rawC8)) 0 .belongs_to_collection = none :=
  ⟨by decide, by decide, by decide, by decide, by decide⟩

/-- A batch in fully cleaned shape whose parsed columns are absent, for
the C8 witness. -/
def frameC8 : Frame :=
  { cols := [.id, .title, .tagline, .budget_musd, .revenue_musd, .vote_count,
             .vote_average, .popularity, .runtime, .overview],
    rows := [
      [(Col.id, some (.num 1)), (Col.title, some (.vstr "A")),
       (Col.tagline, some (.vstr "t")), (Col.budget_musd, some (.num 2)),
       (Col.revenue_musd, some (.num 6)), (Col.vote_count, some (.num 10)),
       (Col.vote_average, some (.num 7)), (Col.popularity, some (.num 5)),
       (Col.runtime, some (.num 100)), (Col.overview, some (.vstr "o"))]] }

/-- C8 witness: the amended idempotence theorem applied to `frameC8`. -/
theorem C8_clean_idempotent_witness :
    clean_movies frameC8 = frameC8 :=
  C8_clean_idempotent_when_parsed_missing frameC8
    (by decide) (by decide)
    (by
      intro c hc hmem i hi
      have h0 : i = 0 := by
        have h1 : i < 1 := hi
        omega
      subst h0
      revert hmem
      rcases hc with h | h | h | h | h <;> subst h <;> decide)
    (by
      intro c hc hmem i hi
      have h0 : i = 0 := by
        have h1 : i < 1 := hi
        omega
      subst h0
      revert hmem
      rcases hc with h | h | h | h | h | h | h <;> subst h <;> decide)
    (by intro hmem; exact absurd hmem (by decide))
    (by
      intro c hc hmem i hi
      have h0 : i = 0 := by
        have h1 : i < 1 := hi
        omega
      subst h0
      revert hmem
      rcases hc with h | h | h <;> subst h <;> decide)
    (by intro hmem; exact absurd hmem (by decide))
    (by intro hmem; exact absurd hmem (by decide))
    (by
      intro c hc hmem i hi
      have h0 : i = 0 := by
        have h1 : i < 1 := hi
        omega
      subst h0
      revert hmem
      rcases hc with h | h <;> subst h <;> decide)
    (by intro _; decide)
    (by
      intro _ _ i hi
      have h0 : i = 0 := by
        have h1 : i < 1 := hi
        omega
      subst h0
      decide)
    (by
      intro i hi
      have h0 : i = 0 := by
        have h1 : i < 1 := hi
        omega
      subst h0
      decide)
    (by decide) (by decide)

end TMDB
